import Mathlib

/-!
# Verification of the pytsk binding-generator core

A shallow embedding, in Lean 4, of the parts of `lexer.py` and
`class_parser.py` that the specification talks about:

* the generic feed lexer (`Lexer.next_token`, its rule table, its
  bounded error recovery);
* a backtracking regular-expression interpreter mirroring Python `re`
  semantics (`re.match` with `DOTALL | MULTILINE`), used to embed the
  concrete `HeaderParser.tokens` rule table;
* the semantic model (`Module`, `ClassGenerator`, `Method`,
  `GetattrMethod`, the `type_dispatcher` registry) and the
  `HeaderParser` callback handlers;
* the inheritance-ordered module initialisation
  (`Module.initialise_class` / `Module.write`).

Python aliasing is modelled by value; the handlers studied here do not
exploit object identity.  Machine strings are modelled as `List Char`
(buffers) and `String` (names); byte counts are `Nat`.
-/

namespace Pytsk

/-! ## The generic feed lexer (`lexer.py`)

A rule row is `[state_re, re, token, next_state]`; the two regexes are
modelled extensionally: `stateMatch` is `state_re.match(current_state)`
viewed as a Boolean test, and `patMatch` is `regex.match(buffer)`,
returning the match data when the pattern matches a prefix of the
buffer.  The concrete `HeaderParser` table instantiates both through
the regex interpreter defined later in this file. -/

/-- Result of a successful Python `regex.match`: `endPos` is `m.end()`
(the length of the matched prefix) and `groups` are the capturing
groups `m.group(1), …` (`none` when the group did not participate). -/
structure ReMatch where
  endPos : Nat
  matched : List Char
  groups : List (Option (List Char))
  deriving Repr, DecidableEq

/-- `m.group(i)` for `i ≥ 1`; out-of-range gives `none` (Python would
raise, but the embedded handlers only access existing groups). -/
def ReMatch.group (m : ReMatch) (i : Nat) : Option (List Char) :=
  (m.groups.getD (i - 1) none)

/-- One row of a `Lexer.tokens` table. -/
structure Rule (σ : Type) where
  stateMatch : String → Bool
  patMatch : List Char → Option ReMatch
  token : String
  next : Option String

/-- The mutable state of `Lexer`, with the subclass's own mutable data
(`HeaderParser`'s parse model) stored in `model`. -/
structure LexState (σ : Type) where
  state : String
  stateStack : List String
  buffer : List Char
  processed : Nat
  processedBuffer : List Char
  error : Nat
  model : σ

/-- What a dispatched callback may do: the handlers of this program
mutate the state stack, the error counter and the subclass model, and
return either `None`, `"CONTINUE"`, or a new state name (`Lexer.ERROR`,
`PUSH_STATE`, `POP_STATE` and every `HeaderParser` handler fit this
shape; none of them touches the buffer fields). -/
structure HandlerEnv (σ : Type) where
  state : String
  stateStack : List String
  error : Nat
  model : σ

/-- A handler table: action name and match data to effect and Python
return value (`none` models returning `None`). -/
def Handlers (σ : Type) : Type :=
  String → ReMatch → HandlerEnv σ → HandlerEnv σ × Option String

/-- Python truthiness of an optional string. -/
def truthy : Option String → Bool
  | none => false
  | some s => s ≠ ""

/-- Helper for `splitActions`. -/
def splitCommaAux : List Char → List Char → List String
  | [], acc => [acc.reverse.asString]
  | ',' :: rest, acc => acc.reverse.asString :: splitCommaAux rest []
  | c :: rest, acc => splitCommaAux rest (c :: acc)

/-- `token.split(',')` of a rule's action field. -/
def splitActions (s : String) : List String :=
  splitCommaAux s.toList []

/-- The scan loop of `next_token` (lexer.py:100–105): try each rule in
declared order, keep only rules whose state regex matches the current
state, and take the first whose pattern matches the buffer. -/
def findRule {σ : Type} (rules : List (Rule σ)) (state : String)
    (buffer : List Char) : Option (Rule σ × ReMatch) :=
  match rules with
  | [] => none
  | r :: rest =>
    if r.stateMatch state then
      match r.patMatch buffer with
      | some m => some (r, m)
      | none => findRule rest state buffer
    else
      findRule rest state buffer

/-- The action-dispatch loop of `next_token` (lexer.py:116–131): each
action in the comma-separated list is dispatched; a returned
`"CONTINUE"` skips the state update for that action, any other truthy
return becomes the pending next state (last one wins) and is written to
`self.state` immediately. -/
def runActions {σ : Type} (handlers : Handlers σ) (m : ReMatch) :
    List String → HandlerEnv σ → Option String → HandlerEnv σ × Option String
  | [], env, next => (env, next)
  | t :: rest, env, next =>
    let (env', r) := handlers t m env
    if r = some "CONTINUE" then
      runActions handlers m rest env' next
    else if truthy r then
      runActions handlers m rest { env' with state := r.getD "" } r
    else
      runActions handlers m rest env' next

/-- `Lexer.next_token` (lexer.py:97–148).  On a match the matched
prefix is moved from the buffer to the processed log, the processed
count advances by `m.end()`, the actions run, and the rule's token is
returned.  If no rule matches and the buffer is non-empty at
end-of-feed, or more than 1024 bytes are buffered, one byte is
discarded, the error counter is bumped (`Lexer.ERROR`, weight 1), and
`"ERROR"` is returned; otherwise `None`. -/
def next_token {σ : Type} (rules : List (Rule σ)) (handlers : Handlers σ)
    (endOfFeed : Bool) (s : LexState σ) : LexState σ × Option String :=
  match findRule rules s.state s.buffer with
  | some (r, m) =>
    let s1 : LexState σ :=
      { s with
        processedBuffer := s.processedBuffer ++ s.buffer.take m.endPos
        buffer := s.buffer.drop m.endPos
        processed := s.processed + m.endPos }
    let (env, next) := runActions handlers m (splitActions r.token)
      ⟨s1.state, s1.stateStack, s1.error, s1.model⟩ r.next
    let s2 : LexState σ :=
      { s1 with
        state := env.state, stateStack := env.stateStack,
        error := env.error, model := env.model }
    let s3 : LexState σ :=
      match next with
      | some n => if n ≠ "" then { s2 with state := n } else s2
      | none => s2
    (s3, some r.token)
  | none =>
    if (endOfFeed && decide (0 < s.buffer.length)) ||
        decide (1024 < s.buffer.length) then
      ({ s with
          processedBuffer := s.processedBuffer ++ s.buffer.take 1
          buffer := s.buffer.drop 1
          error := s.error + 1 }, some "ERROR")
    else
      (s, none)

/-! ## A backtracking regular-expression interpreter

`HeaderParser.tokens` stores its patterns as Python regexes compiled
with `re.DOTALL | re.MULTILINE` (lexer.py:51) and applied with
`regex.match` (anchored at the start of the buffer).  The interpreter
below reproduces the backtracking search order of the Python engine:
alternation prefers the left branch, `*`/`+` are greedy (longest
first), `*?`/`+?` are lazy (shortest first), and a repeated group
records its last participation.  Under DOTALL `.` also matches a
newline; under MULTILINE `^` matches at the start of the text or right
after a newline. -/

/-- Regex abstract syntax; `cls neg rs` is a (possibly negated)
character class given by inclusive ranges. -/
inductive Re where
  | eps
  | lit (c : Char)
  | cls (neg : Bool) (ranges : List (Char × Char))
  | any
  | seq (a b : Re)
  | alt (a b : Re)
  | star (a : Re)
  | starNG (a : Re)
  | opt (a : Re)
  | group (i : Nat) (a : Re)
  | bol
  deriving Repr

/-- Captured-group store: `(index, start, stop)`, most recent first. -/
def ReGroups : Type := List (Nat × Nat × Nat)

/-- Backtracking matcher in continuation-passing style.  The fuel only
bounds the recursion depth (one unit per syntax node entered and per
repetition step) and is chosen large enough below to never be the
reason a match fails. -/
def mrun : Nat → Re → List Char → Nat → ReGroups →
    (Nat → ReGroups → Option (Nat × ReGroups)) → Option (Nat × ReGroups)
  | 0, _, _, _, _, _ => none
  | _ + 1, .eps, _, p, g, k => k p g
  | _ + 1, .lit c, s, p, g, k =>
    match s.drop p with
    | [] => none
    | c' :: _ => if c' = c then k (p + 1) g else none
  | _ + 1, .cls neg rs, s, p, g, k =>
    match s.drop p with
    | [] => none
    | c' :: _ =>
      if (rs.any fun q => q.1 ≤ c' && c' ≤ q.2) ≠ neg then k (p + 1) g
      else none
  | _ + 1, .any, s, p, g, k =>
    match s.drop p with
    | [] => none
    | _ :: _ => k (p + 1) g
  | f + 1, .seq a b, s, p, g, k =>
    mrun f a s p g fun p' g' => mrun f b s p' g' k
  | f + 1, .alt a b, s, p, g, k =>
    match mrun f a s p g k with
    | some r => some r
    | none => mrun f b s p g k
  | f + 1, .star a, s, p, g, k =>
    match mrun f a s p g
        (fun p' g' => if p < p' then mrun f (.star a) s p' g' k else none) with
    | some r => some r
    | none => k p g
  | f + 1, .starNG a, s, p, g, k =>
    match k p g with
    | some r => some r
    | none =>
      mrun f a s p g fun p' g' =>
        if p < p' then mrun f (.starNG a) s p' g' k else none
  | f + 1, .opt a, s, p, g, k =>
    match mrun f a s p g k with
    | some r => some r
    | none => k p g
  | f + 1, .group i a, s, p, g, k =>
    mrun f a s p g fun p' g' => k p' ((i, p, p') :: g')
  | _ + 1, .bol, s, p, g, k =>
    if p = 0 ∨ s.getD (p - 1) ' ' = '\n' then k p g else none

/-- Structural size, used to budget matcher fuel. -/
def reSize : Re → Nat
  | .eps | .lit _ | .cls _ _ | .any | .bol => 1
  | .seq a b | .alt a b => reSize a + reSize b + 1
  | .star a | .starNG a | .opt a | .group _ a => reSize a + 1

/-- Largest capture-group index occurring in a pattern. -/
def maxGroup : Re → Nat
  | .eps | .lit _ | .cls _ _ | .any | .bol => 0
  | .seq a b | .alt a b => max (maxGroup a) (maxGroup b)
  | .star a | .starNG a | .opt a => maxGroup a
  | .group i a => max i (maxGroup a)

/-- `regex.match(s)`: anchored match over the whole pattern, returning
`m.end()`, `m.group(0)` and the capture groups. -/
def reMatchTop (r : Re) (s : List Char) : Option ReMatch :=
  match mrun (s.length + reSize r + 100) r s 0 []
      (fun p g => some (p, g)) with
  | some (p, g) =>
    some ⟨p, s.take p,
      (List.range (maxGroup r)).map fun i =>
        match g.find? (fun e => e.1 = i + 1) with
        | some (_, a, b) => some ((s.drop a).take (b - a))
        | none => none⟩
  | none => none

/-- `regex.search(s)`: try an anchored match at every start position
(used by `Method.find_optional_vars`'s `default_re.search`). -/
def reSearch (r : Re) (s : List Char) : Option ReMatch :=
  (List.range (s.length + 1)).firstM fun start =>
    match reMatchTop r (s.drop start) with
    | some m => some m
    | none => none

/-! Pattern-building helpers. -/

/-- Sequence a list of regexes. -/
def seqL (l : List Re) : Re :=
  match l with
  | [] => .eps
  | [r] => r
  | r :: rest => .seq r (seqL rest)

/-- Literal string. -/
def strRe (s : String) : Re := seqL (s.toList.map Re.lit)

/-- Greedy `+`. -/
def plusRe (r : Re) : Re := .seq r (.star r)

/-- Lazy `+?`. -/
def plusNG (r : Re) : Re := .seq r (.starNG r)

/-- Python `\s` for byte strings: `[ \t\n\r\f\v]`. -/
def wsRe : Re := .cls false [('\t', '\r'), (' ', ' ')]

/-- `[^\n]`. -/
def notNL : Re := .cls true [('\n', '\n')]

/-- `[A-Z_a-z0-9]`, the identifier class of the declaration grammar. -/
def identCls : Re := .cls false [('A', 'Z'), ('_', '_'), ('a', 'z'), ('0', '9')]

/-- `[0-9A-Z_a-z ]`, identifier characters or a space (type spellings). -/
def identSpCls : Re :=
  .cls false [('0', '9'), ('A', 'Z'), ('_', '_'), ('a', 'z'), (' ', ' ')]

/-! ## Python string primitives used by the handlers -/

/-- Python whitespace (`str.strip`, `str.split`): `[ \t\n\r\v\f]`. -/
def pyIsSpace (c : Char) : Bool :=
  c = ' ' || c = '\t' || c = '\n' || c = '\r' || c = '\x0b' || c = '\x0c'

/-- `str.strip()`. -/
def pyStrip (l : List Char) : List Char :=
  ((l.dropWhile pyIsSpace).reverse.dropWhile pyIsSpace).reverse

/-- Strip a capture group and render it as a name (`m.group(i).strip()`). -/
def groupStr (m : ReMatch) (i : Nat) : String :=
  (pyStrip (m.group i |>.getD [])).asString

/-- A capture group as-is. -/
def groupRaw (m : ReMatch) (i : Nat) : Option String :=
  (m.group i).map List.asString

/-- ASCII `str.upper()` on one character. -/
def pyUpperChar (c : Char) : Char :=
  if 'a' ≤ c ∧ c ≤ 'z' then Char.ofNat (c.toNat - 32) else c

/-- `name == name.upper()` for the byte strings the parser sees. -/
def pyIsUpperEq (l : List Char) : Bool :=
  l = l.map pyUpperChar

/-- Helper for `pySplitWs`: accumulate the current word (reversed). -/
def pySplitWsAux : List Char → List Char → List (List Char)
  | [], acc => if acc.isEmpty then [] else [acc.reverse]
  | c :: rest, acc =>
    if pyIsSpace c then
      if acc.isEmpty then pySplitWsAux rest []
      else acc.reverse :: pySplitWsAux rest []
    else pySplitWsAux rest (c :: acc)

/-- `str.split()` with no argument: split on whitespace runs, no empty
pieces (used by `dispatch` for `type.split()`). -/
def pySplitWs (l : List Char) : List (List Char) := pySplitWsAux l []

/-- `line.split("/*")[0]`: the prefix of `l` before the first
occurrence of the two-character sequence `/*`. -/
def takeBeforeCommentOpen : List Char → List Char
  | [] => []
  | '/' :: '*' :: _ => []
  | c :: rest => c :: takeBeforeCommentOpen rest

/-- `"PRIVATE" in modifier` on Python strings is substring search. -/
def pyInStr (needle haystack : String) : Bool :=
  decide (needle.toList <:+: haystack.toList)

/-- `str.startswith`. -/
def pyStartsWith (s pre : String) : Bool :=
  pre.toList.isPrefixOf s.toList

/-- `" ".join(...)`. -/
def joinSpace : List String → String
  | [] => ""
  | [s] => s
  | s :: rest => s ++ " " ++ joinSpace rest

/-! ## The type registry (`type_dispatcher`) and Type variants

Each Python `Type` subclass with a distinct marshalling contract is one
constructor; the class attributes consulted by the parser
(`buildstr`, `interface`, `sense`, `active`) become functions. -/

inductive TypeVariant where
  | string_ | zstring | borrowedString | stringOut
  | charAndLength | charAndLengthOut
  | integer | integerUnsigned
  | integer8 | integer8Unsigned | integer16 | integer16Unsigned
  | integer32 | integer32Unsigned | integer64 | integer64Unsigned
  | long_ | longUnsigned | char_
  | integerOut | pinteger32UnsignedOut | pinteger64UnsignedOut
  | void_ | pvoid
  | tdbDataP | tdbData
  | timeval | stringArray | pyObject
  | wrapper | pointerWrapper | structWrapper | pointerStructWrapper
  | enumType
  deriving Repr, DecidableEq

namespace TypeVariant

/-- The `buildstr` class attribute (the `PyArg_ParseTupleAndKeywords`
format tag). -/
def buildstr : TypeVariant → String
  | string_ | zstring | borrowedString | stringOut => "s"
  | charAndLength => "s#"
  | charAndLengthOut | tdbDataP | tdbData => "l"
  | integer | integer8 | integer16 | integer32 | enumType => "i"
  | integerUnsigned | integer8Unsigned | integer16Unsigned
  | integer32Unsigned => "I"
  | integer64 => "L"
  | integer64Unsigned => "K"
  | long_ => "l"
  | longUnsigned => "k"
  | char_ => "s"
  | integerOut | pinteger32UnsignedOut | pinteger64UnsignedOut => ""
  | void_ | pvoid => ""
  | timeval => "f"
  | stringArray | pyObject => "O"
  | wrapper | pointerWrapper | structWrapper | pointerStructWrapper => "O"

/-- The `interface` class attribute. -/
def interface : TypeVariant → Option String
  | string_ | borrowedString | stringOut => some "string"
  | zstring => some "null_terminated_string"
  | charAndLength | charAndLengthOut | tdbDataP | tdbData =>
    some "char_and_length"
  | integer | integerUnsigned
  | integer8 | integer8Unsigned | integer16 | integer16Unsigned
  | integer32 | integer32Unsigned | integer64 | integer64Unsigned
  | long_ | longUnsigned
  | integerOut | pinteger32UnsignedOut | pinteger64UnsignedOut
  | enumType => some "integer"
  | char_ => some "small_integer"
  | timeval => some "numeric"
  | stringArray => some "array"
  | pyObject => some "opaque"
  | void_ | pvoid => none
  | wrapper | pointerWrapper | structWrapper | pointerStructWrapper => none

/-- The `sense` class attribute. -/
def sense : TypeVariant → String
  | stringOut => "OUT"
  | integerOut | pinteger32UnsignedOut | pinteger64UnsignedOut
  | charAndLengthOut | tdbDataP | tdbData => "OUT_DONE"
  | _ => "IN"

/-- The `active` class attribute (structs default inactive). -/
def active : TypeVariant → Bool
  | structWrapper | pointerStructWrapper => false
  | _ => true

end TypeVariant

/-- The initial contents of the module-level `type_dispatcher`
dictionary (class_parser.py:2206–2253). -/
def typeDispatcher0 : List (String × TypeVariant) := [
  ("IN unsigned char *", .string_),
  ("IN char *", .string_),
  ("unsigned char *", .string_),
  ("char *", .string_),
  ("ZString", .zstring),
  ("OUT unsigned char *", .stringOut),
  ("OUT char *", .stringOut),
  ("OUT uint64_t *", .pinteger64UnsignedOut),
  ("OUT uint32_t *", .pinteger32UnsignedOut),
  ("void *", .pvoid),
  ("void", .void_),
  ("TDB_DATA *", .tdbDataP),
  ("TDB_DATA", .tdbData),
  ("TSK_INUM_T", .integer),
  ("off_t", .integer64),
  ("size_t", .integer64Unsigned),
  ("ssize_t", .integer64),
  ("time_t", .integer64),
  ("unsigned long", .longUnsigned),
  ("long", .long_),
  ("unsigned long int", .longUnsigned),
  ("long int", .integer),
  ("unsigned int", .integer),
  ("int", .integer),
  ("uint64_t", .integer64Unsigned),
  ("uint32_t", .integer32Unsigned),
  ("uint16_t", .integer16Unsigned),
  ("uint8_t", .integer8Unsigned),
  ("int64_t", .integer64),
  ("int32_t", .integer32),
  ("int16_t", .integer16),
  ("int8_t", .integer8),
  ("char", .char_),
  ("struct timeval", .timeval),
  ("char **", .stringArray),
  ("PyObject *", .pyObject)]

/-- `method_attributes` (class_parser.py:2255). -/
def method_attributes : List String := ["BORROWED", "DESTRUCTOR", "IGNORE"]

/-- Dictionary update: replace the value under an existing key, else
append a new binding. -/
def dictSet {α : Type} (d : List (String × α)) (k : String) (v : α) :
    List (String × α) :=
  match d with
  | [] => [(k, v)]
  | (k', v') :: rest =>
    if k' = k then (k, v) :: rest else (k', v') :: dictSet rest k v

/-- Dictionary lookup. -/
def dictGet {α : Type} (d : List (String × α)) (k : String) : Option α :=
  match d with
  | [] => none
  | (k', v) :: rest => if k' = k then some v else dictGet rest k

/-- Set insertion (Python `set.add`). -/
def setAdd {α : Type} [DecidableEq α] (s : List α) (x : α) : List α :=
  if x ∈ s then s else s ++ [x]

/-! ## Semantic model: Type instances, methods, classes, module -/

/-- An instantiated `Type` object as the parser stores it in an
argument list or attribute table.  `length`/`lengthType` are only used
by the fused `Char_and_Length` variants; `arraySize` models the
`array_size` keyword argument of struct array attributes. -/
structure ArgM where
  variant : TypeVariant
  name : String
  type : String
  originalType : Option String := none
  length : String := ""
  lengthType : String := ""
  attributes : List String := []
  arraySize : Option String := none
  deriving Repr, DecidableEq

/-- `Type.python_name()`: the keyword name of a positional argument;
the `IntegerOut` family overrides it to `None`. -/
def ArgM.pythonName (a : ArgM) : Option String :=
  match a.variant with
  | .integerOut | .pinteger32UnsignedOut | .pinteger64UnsignedOut => none
  | _ => some a.name

/-- `int_type` of the integer family (assigned to `self.type` by
`Integer.__init__`). -/
def intTypeOf : TypeVariant → Option String
  | .integer => some "int"
  | .integerUnsigned => some "unsigned int"
  | .integer8 => some "int8_t"
  | .integer8Unsigned => some "uint8_t"
  | .integer16 => some "int16_t"
  | .integer16Unsigned => some "uint16_t"
  | .integer32 => some "int32_t"
  | .integer32Unsigned => some "uint32_t"
  | .integer64 => some "int64_t"
  | .integer64Unsigned => some "uint64_t"
  | .long_ => some "long"
  | .longUnsigned => some "unsigned long"
  | .char_ => some "int"
  | .integerOut => some "int *"
  | .pinteger32UnsignedOut => some "uint32_t *"
  | .pinteger64UnsignedOut => some "uint64_t *"
  | _ => none

/-- `type_dispatcher[type](name, type)`: construct a Type instance,
reproducing each `__init__`'s adjustments of `self.type` /
`self.original_type`. -/
def mkArg (v : TypeVariant) (name type : String) : ArgM :=
  match v with
  | .pointerWrapper =>
    { variant := v, name := name,
      type := ((pySplitWs type.toList).headD []).asString }
  | .structWrapper | .pointerStructWrapper =>
    { variant := v, name := name, type := type,
      originalType := some (((pySplitWs type.toList).headD []).asString) }
  | .enumType =>
    { variant := v, name := name, type := type, originalType := some type }
  | _ =>
    match intTypeOf v with
    | some it =>
      { variant := v, name := name, type := it, originalType := some type }
    | none => { variant := v, name := name, type := type }

/-- The `struct ([a-zA-Z0-9]+)_t *` rewrite used by `dispatch`
(class_parser.py:254); note the pattern ends in a literal space and
`*`, i.e. zero or more trailing spaces. -/
def dispatchStructRe : Re := seqL [
  strRe "struct ",
  .group 1 (plusRe (.cls false [('a', 'z'), ('A', 'Z'), ('0', '9')])),
  strRe "_t",
  .star (.lit ' ')]

/-- `Method.typedefed_re`: `struct (.+)_t \*` (no DOTALL flag, so `.`
excludes the newline). -/
def typedefedRe : Re := seqL [
  strRe "struct ",
  .group 1 (plusRe notNL),
  strRe "_t *"]

/-- `dispatch(name, type)` (class_parser.py:250–269): empty type gives
`PVoid`; a `struct X_t` spelling is canonicalised; a leading
`method_attributes` word is stripped into the attribute set; then the
registry is consulted (`none` models the `KeyError`). -/
def dispatch (disp : List (String × TypeVariant)) (name type : String) :
    Option ArgM :=
  if type = "" then some (mkArg .pvoid name "void *")
  else
    let type1 :=
      match reMatchTop dispatchStructRe type.toList with
      | some m => ((m.group 1).getD []).asString
      | none => type
    let comps := (pySplitWs type1.toList).map List.asString
    let (attrs, comps2) :=
      match comps with
      | c :: rest =>
        if c ∈ method_attributes then ([c], rest) else ([], comps)
      | [] => (([] : List String), ([] : List String))
    let type2 := joinSpace comps2
    match dictGet disp type2 with
    | some v => some { mkArg v name type2 with attributes := attrs }
    | none => none

/-- Method kinds: which Python class the parser instantiated. -/
inductive MethodKind where
  | plain | iterator | selfIterator | constructor | emptyConstructor
  deriving Repr, DecidableEq

/-- The return-type slot of a method. -/
structure RetM where
  variant : TypeVariant
  name : String := "func_return"
  type : String := ""
  originalType : String := ""
  attributes : List String := []
  deriving Repr, DecidableEq

/-- A `Method` (or subclass) instance. -/
structure MethodM where
  kind : MethodKind
  class_name : String
  base_class_name : String
  definition_class_name : String
  name : String
  args : List ArgM
  return_type : RetM
  docstring : String
  modifier : String := ""
  defaults : List (String × String) := []
  exception : Option (String × String × String) := none
  deriving Repr, DecidableEq

/-- `Method.add_arg` (class_parser.py:2560–2599): resolve the type in
the registry (retrying through `typedefed_re`), collapse a trailing
`string`-interface argument followed by an `integer`-interface one into
a `Char_and_Length` (OUT if the string argument's sense was OUT), and
otherwise append; an unresolvable type is logged and skipped. -/
def addArg (disp : List (String × TypeVariant)) (args : List ArgM)
    (type name : String) : List ArgM :=
  let t? : Option ArgM :=
    match dictGet disp type with
    | some v => some (mkArg v name type)
    | none =>
      match reMatchTop typedefedRe type.toList with
      | some m =>
        let type' := ((m.group 1).getD []).asString
        match dictGet disp type' with
        | some v => some (mkArg v name type')
        | none => none
      | none => none
  match t? with
  | none => args
  | some t =>
    match args.getLast? with
    | some previous =>
      if t.variant.interface = some "integer" ∧
          previous.variant.interface = some "string" then
        let fusedVariant : TypeVariant :=
          if previous.variant.sense = "OUT" then .charAndLengthOut
          else .charAndLength
        let fused : ArgM :=
          { variant := fusedVariant, name := previous.name,
            type := previous.type, length := name, lengthType := type }
        args.dropLast ++ [fused]
      else
        args ++ [t]
    | none => args ++ [t]

/-- `Method.default_re`: `DEFAULT\(([A-Z_a-z0-9]+)\) =(.+);`. -/
def defaultRe : Re := seqL [
  strRe "DEFAULT(",
  .group 1 (plusRe identCls),
  strRe ") =",
  .group 2 (plusRe notNL),
  .lit ';']

/-- `Method.exception_re`: `RAISES\(([^,]+),\s*([^\)]+)\) =(.+);`. -/
def exceptionRe : Re := seqL [
  strRe "RAISES(",
  .group 1 (plusRe (.cls true [(',', ',')])),
  .lit ',', .star wsRe,
  .group 2 (plusRe (.cls true [(')', ')')])),
  strRe ") =",
  .group 3 (plusRe notNL),
  .lit ';']

/-- Helper for `splitLines`: accumulate the current line reversed. -/
def splitLinesAux : List Char → List Char → List (List Char)
  | [], acc => [acc.reverse]
  | '\n' :: rest, acc => acc.reverse :: splitLinesAux rest []
  | c :: rest, acc => splitLinesAux rest (c :: acc)

/-- `str.splitlines()` for newline-separated text (a trailing newline
does not produce a final empty line). -/
def splitLines (l : List Char) : List (List Char) :=
  match l with
  | [] => []
  | l =>
    match (splitLinesAux l []).reverse with
    | [] :: restRev => restRev.reverse
    | other => other.reverse

/-- `Method.find_optional_vars` (class_parser.py:2335–2348): scan the
docstring for `DEFAULT(arg) = expr;` and `RAISES(cond, kind) = msg;`
directives. -/
def findOptionalVars (m : MethodM) : MethodM :=
  (splitLines m.docstring.toList).foldl
    (fun acc line =>
      let acc :=
        match reSearch defaultRe line with
        | some mm =>
          { acc with
            defaults := dictSet acc.defaults
              (((mm.group 1).getD []).asString)
              (((mm.group 2).getD []).asString) }
        | none => acc
      match reSearch exceptionRe line with
      | some mm =>
        { acc with
          exception := some (((mm.group 1).getD []).asString,
            ((mm.group 2).getD []).asString,
            ((mm.group 3).getD []).asString) }
      | none => acc)
    m

/-- `Method.__init__` (class_parser.py:2283–2313): add each given
argument, then resolve the return type through `dispatch`, marking it
`OUT`; a `KeyError` (unresolved spelling) is logged and replaced by the
`PVoid` fallback; `IteratorMethod.__init__` additionally marks the
return `NULL_OK`. -/
def mkMethod (disp : List (String × TypeVariant)) (kind : MethodKind)
    (class_name base_class_name name : String)
    (args : List (String × String)) (return_type : String) : MethodM :=
  let argList := args.foldl (fun acc (p : String × String) =>
    addArg disp acc p.1 p.2) []
  let rt : RetM :=
    match dispatch disp "func_return" return_type with
    | some a =>
      { variant := a.variant, name := "func_return", type := a.type,
        originalType := return_type,
        attributes := setAdd a.attributes "OUT" }
    | none => { variant := .pvoid, type := "void *" }
  let rt := if kind = .iterator then
      { rt with attributes := setAdd rt.attributes "NULL_OK" } else rt
  { kind := kind, class_name := class_name,
    base_class_name := base_class_name,
    definition_class_name := class_name, name := name, args := argList,
    return_type := rt, docstring := "" }

/-- `Method.clone` (class_parser.py:2321–2333): re-scan the docstring
for defaults, then build a fresh instance of the same class carrying
over args, return type, definition class, defaults and exception (the
docstring itself is not carried over). -/
def methodClone (m : MethodM) (new_class_name : String) : MethodM :=
  let m' := findOptionalVars m
  { kind := m.kind, class_name := new_class_name,
    base_class_name := m.base_class_name,
    definition_class_name := m.definition_class_name, name := m.name,
    args := m.args, return_type := m.return_type, docstring := "",
    modifier := "", defaults := m'.defaults, exception := m'.exception }

/-- A `GetattrMethod` aggregate: the per-class computed-attribute
table.  The empty string models Python `None` for names. -/
structure GetattrM where
  class_name : String
  base_class_name : String
  name : String
  attrs : List (String × ArgM)
  deriving Repr, DecidableEq

/-- `GetattrMethod.__init__` / `rename_class_name`. -/
def mkGetattr (class_name base_class_name : String) : GetattrM :=
  { class_name := class_name, base_class_name := base_class_name,
    name := if class_name = "" then ""
      else "py" ++ class_name ++ "_getattr",
    attrs := [] }

/-- `GetattrMethod.add_attribute`: ignore attributes with falsy
names. -/
def GetattrM.addAttribute (g : GetattrM) (a : ArgM) : GetattrM :=
  if a.name ≠ "" then { g with attrs := g.attrs ++ [(g.class_name, a)] }
  else g

/-- `GetattrMethod.clone`. -/
def GetattrM.clone (g : GetattrM) (class_name : String) : GetattrM :=
  { mkGetattr class_name g.base_class_name with attrs := g.attrs }

/-- Which generator class an entry of `Module.classes` is. -/
inductive GenKind where
  | classGen | structGen | enumGen
  deriving Repr, DecidableEq

/-- A `ClassGenerator` / `StructGenerator` / `Enum` instance.  The
empty string models Python `None` for `class_name`/`base_class_name`;
`values`/`enumName` are only used by enums. -/
structure ClassGen where
  kind : GenKind
  class_name : String
  base_class_name : String
  methods : List MethodM
  constructor : Option MethodM
  attributes : Option GetattrM
  modifier : List (Option String)
  active : Bool
  docstring : String
  values : List String := []
  enumName : String := ""
  deriving Repr, DecidableEq

/-- The `EmptyConstructor` made by `ClassGenerator.__init__`
(`EmptyConstructor(class_name, base_class_name, "Con", [], "")`);
`dispatch("func_return", "")` short-circuits to `PVoid` and is then
marked `OUT`. -/
def mkEmptyConstructor (class_name base_class_name : String) : MethodM :=
  { kind := .emptyConstructor, class_name := class_name,
    base_class_name := base_class_name,
    definition_class_name := class_name, name := "Con", args := [],
    return_type :=
      { variant := .pvoid, type := "void *", originalType := "",
        attributes := ["OUT"] },
    docstring := "" }

/-- `ClassGenerator.__init__` (class_parser.py:3383–3398). -/
def mkClassGenerator (class_name base_class_name : String) : ClassGen :=
  { kind := .classGen, class_name := class_name,
    base_class_name := base_class_name, methods := [],
    constructor := some (mkEmptyConstructor class_name base_class_name),
    attributes := some (mkGetattr class_name base_class_name),
    modifier := [], active := true, docstring := "" }

/-- `StructGenerator.__init__` (class_parser.py:3801–3810): inactive,
no constructor, no base. -/
def mkStructGenerator (class_name : String) : ClassGen :=
  { kind := .structGen, class_name := class_name, base_class_name := "",
    methods := [], constructor := none,
    attributes := some (mkGetattr class_name ""), modifier := [],
    active := false, docstring := "" }

/-- `Enum.__init__` (class_parser.py:3942–3947): active, no attribute
table. -/
def mkEnum (name : String) : ClassGen :=
  { mkStructGenerator name with
      kind := .enumGen
      attributes := none
      active := true
      enumName := name }

/-- `ClassGenerator.clone` (class_parser.py:3435–3445): a fresh
generator named `new_class_name` whose base is the cloned class, with
cloned methods, constructor and attribute table.  `none` models the
`AttributeError` raised when the source has no constructor or no
attribute table to clone (structs before `prepare`, enums). -/
def classClone (c : ClassGen) (new_class_name : String) :
    Option ClassGen :=
  match c.constructor, c.attributes with
  | some ctor, some att =>
    some { mkClassGenerator new_class_name c.class_name with
        constructor := some (methodClone ctor new_class_name)
        methods := c.methods.map (methodClone · new_class_name)
        attributes := some (att.clone new_class_name) }
  | _, _ => none

/-- The `Module` object. -/
structure ModuleM where
  name : String
  constants : List (String × String)
  constants_blacklist : List String
  classes : List (String × ClassGen)
  active_structs : List String
  function_definitions : List String
  files : List String
  deriving Repr, DecidableEq

/-- `Module.__init__` (class_parser.py:294–302);
`CONSTANTS_BLACKLIST = ["TSK3_H_"]`. -/
def mkModule (name : String) : ModuleM :=
  { name := name, constants := [], constants_blacklist := ["TSK3_H_"],
    classes := [], active_structs := [], function_definitions := [],
    files := [] }

/-- `Module.add_constant`. -/
def ModuleM.addConstant (m : ModuleM) (constant type : String) :
    ModuleM :=
  { m with constants := setAdd m.constants (constant, type) }

/-- `ClassGenerator.is_active` (class_parser.py:3422–3433). -/
def isActive (m : ModuleM) (c : ClassGen) : Bool :=
  if c.class_name ∈ m.active_structs then true
  else if ¬ c.active ∨ (c.modifier ≠ [] ∧
      (some "PRIVATE" ∈ c.modifier ∨ some "ABSTRACT" ∈ c.modifier)) then
    false
  else true

/-- `ClassGenerator.add_attribute` (class_parser.py:3447–3466): skip
attributes whose type names an inactive class; resolve
`BORROWED <type>` through `dispatch` (unknown types are logged and
skipped); tag the result with the modifier and append it to the
attribute table. -/
def classAddAttribute (m : ModuleM) (disp : List (String × TypeVariant))
    (c : ClassGen) (attr_name attr_type modifier : String)
    (arraySize : Option String := none) : ClassGen :=
  let inactive :=
    match dictGet m.classes attr_type with
    | some cls => ! isActive m cls
    | none => false
  if inactive then c
  else
    match dispatch disp attr_name ("BORROWED " ++ attr_type) with
    | none => c
    | some tc =>
      let tc := { tc with
        attributes := setAdd tc.attributes modifier
        arraySize := arraySize }
      match c.attributes with
      | some att => { c with attributes := some (att.addAttribute tc) }
      | none => c

/-! ## `HeaderParser`: the concrete rule table

Each row of `HeaderParser.tokens` (class_parser.py:4093–4169), with its
two regexes transcribed into the interpreter's syntax.  Group numbers
follow the opening parentheses of the Python pattern; `(?:…)` is
non-capturing. -/

/-- `[A-Z]`. -/
def upperCls : Re := .cls false [('A', 'Z')]

/-- `[0-9A-Za-z]` (no underscore — the recursive-struct closer). -/
def alnumCls : Re := .cls false [('0', '9'), ('A', 'Z'), ('a', 'z')]

/-- `[0-9A-Za-z_ \*]` of `BIND_STRUCT`. -/
def bindCls : Re :=
  .cls false [('0', '9'), ('A', 'Z'), ('a', 'z'), ('_', '_'), (' ', ' '),
    ('*', '*')]

/-- `#define\s+` -/
def reDefineStart : Re := .seq (strRe "#define") (plusRe wsRe)

/-- `([A-Za-z_0-9]+)\s+[^\n]+` -/
def reDefineBody : Re :=
  seqL [.group 1 (plusRe identCls), plusRe wsRe, plusRe notNL]

/-- `\n` -/
def reDefineNL : Re := .lit '\n'

/-- `\([^\n]+` (macro with arguments — ignored) -/
def reDefineMacro : Re := .seq (.lit '(') (plusRe notNL)

/-- `/\*(.)` -/
def reCommentStart : Re := .seq (strRe "/*") (.group 1 .any)

/-- `(.+?)\*/\s+` -/
def reCommentEnd : Re :=
  seqL [.group 1 (plusNG .any), strRe "*/", plusRe wsRe]

/-- `(.+)` -/
def reCommentBody : Re := .group 1 (plusRe .any)

/-- `//([^\n]+)` -/
def reCppComment : Re := .seq (strRe "//") (.group 1 (plusRe notNL))

/-- `\r?\n\r?\n` -/
def reBlankLine : Re :=
  seqL [.opt (.lit '\r'), .lit '\n', .opt (.lit '\r'), .lit '\n']

/-- `\s+` -/
def reWs : Re := plusRe wsRe

/-- `\\\n` -/
def reBackslashNL : Re := .seq (.lit '\\') (.lit '\n')

/-- `^([A-Z]+)?\s*CLASS\(([A-Z_a-z0-9]+)\s*,\s*([A-Z_a-z0-9]+)\)` -/
def reClassStart : Re := seqL [
  .bol, .opt (.group 1 (plusRe upperCls)), .star wsRe, strRe "CLASS(",
  .group 2 (plusRe identCls), .star wsRe, .lit ',', .star wsRe,
  .group 3 (plusRe identCls), .lit ')']

/-- `^\s*(FOREIGN|ABSTRACT|PRIVATE)?([0-9A-Z_a-z ]+( |\*))METHOD\(([A-Z_a-z0-9]+),\s*([A-Z_a-z0-9]+),?` -/
def reMethodStart : Re := seqL [
  .bol, .star wsRe,
  .opt (.group 1 (.alt (strRe "FOREIGN")
    (.alt (strRe "ABSTRACT") (strRe "PRIVATE")))),
  .group 2 (.seq (plusRe identSpCls)
    (.group 3 (.alt (.lit ' ') (.lit '*')))),
  strRe "METHOD(", .group 4 (plusRe identCls), .lit ',', .star wsRe,
  .group 5 (plusRe identCls), .opt (.lit ',')]

/-- `\s*([0-9A-Z a-z_]+\s+\*?\*?)([0-9A-Za-z_]+),?` -/
def reMethodArg : Re := seqL [
  .star wsRe,
  .group 1 (seqL [plusRe identSpCls, plusRe wsRe, .opt (.lit '*'),
    .opt (.lit '*')]),
  .group 2 (plusRe identCls), .opt (.lit ',')]

/-- `\);` -/
def reMethodEnd : Re := strRe ");"

/-- `^\s*(FOREIGN|ABSTRACT)?([0-9A-Z_a-z ]+\s+\*?)\s*([A-Z_a-z0-9]+)\s*;` -/
def reClassAttr : Re := seqL [
  .bol, .star wsRe,
  .opt (.group 1 (.alt (strRe "FOREIGN") (strRe "ABSTRACT"))),
  .group 2 (seqL [plusRe identSpCls, plusRe wsRe, .opt (.lit '*')]),
  .star wsRe, .group 3 (plusRe identCls), .star wsRe, .lit ';']

/-- `END_CLASS` -/
def reEndClass : Re := strRe "END_CLASS"

/-- `([A-Z_a-z0-9 ]+)?struct\s+([A-Z_a-z0-9]+)\s+{` -/
def reStructStart : Re := seqL [
  .opt (.group 1 (plusRe identSpCls)), strRe "struct", plusRe wsRe,
  .group 2 (plusRe identCls), plusRe wsRe, .lit '{']

/-- `typedef\s+struct\s+{` -/
def reTypedefStructStart : Re := seqL [
  strRe "typedef", plusRe wsRe, strRe "struct", plusRe wsRe, .lit '{']

/-- `^\s*([0-9A-Z_a-z ]+\s+\*?)\s*([A-Z_a-z0-9]+)(?:\[([A-Z_a-z0-9]+)\])?\s*;` -/
def reStructAttr : Re := seqL [
  .bol, .star wsRe,
  .group 1 (seqL [plusRe identSpCls, plusRe wsRe, .opt (.lit '*')]),
  .star wsRe, .group 2 (plusRe identCls),
  .opt (seqL [.lit '[', .group 3 (plusRe identCls), .lit ']']),
  .star wsRe, .lit ';']

/-- `^\s*([0-9A-Z_a-z ]+)\*\s+([A-Z_a-z0-9]+)\s*;` -/
def reStructAttrPtr : Re := seqL [
  .bol, .star wsRe, .group 1 (plusRe identSpCls), .lit '*', plusRe wsRe,
  .group 2 (plusRe identCls), .star wsRe, .lit ';']

/-- `}\s+([0-9A-Za-z_]+);` -/
def reTypedefStructEnd : Re :=
  seqL [.lit '}', plusRe wsRe, .group 1 (plusRe identCls), .lit ';']

/-- `}` -/
def reCloseBrace : Re := .lit '}'

/-- `(struct|union)\s+([_A-Za-z0-9]+)?\s*{` -/
def reRecStructStart : Re := seqL [
  .group 1 (.alt (strRe "struct") (strRe "union")), plusRe wsRe,
  .opt (.group 2 (plusRe identCls)), .star wsRe, .lit '{']

/-- `}\s+[0-9A-Za-z]+` -/
def reRecStructEnd : Re := seqL [.lit '}', plusRe wsRe, plusRe alnumCls]

/-- `enum\s+([0-9A-Za-z_]+)\s+{` -/
def reEnumStart : Re := seqL [
  strRe "enum", plusRe wsRe, .group 1 (plusRe identCls), plusRe wsRe,
  .lit '{']

/-- `typedef\s+enum\s+{` -/
def reTypedefEnumStart : Re := seqL [
  strRe "typedef", plusRe wsRe, strRe "enum", plusRe wsRe, .lit '{']

/-- `([0-9A-Za-z_]+)\s+=[^\n]+` -/
def reEnumValue : Re :=
  seqL [.group 1 (plusRe identCls), plusRe wsRe, .lit '=', plusRe notNL]

/-- `}\s+([0-9A-Za-z_]+);` -/
def reTypedefEnumEnd : Re :=
  seqL [.lit '}', plusRe wsRe, .group 1 (plusRe identCls), .lit ';']

/-- `BIND_STRUCT\(([0-9A-Za-z_ \*]+)\)` -/
def reBindStruct : Re :=
  seqL [strRe "BIND_STRUCT(", .group 1 (plusRe bindCls), .lit ')']

/-- `typedef ([A-Za-z_0-9]+) +([^;]+);` -/
def reSimpleTypedef : Re := seqL [
  strRe "typedef ", .group 1 (plusRe identCls), plusRe (.lit ' '),
  .group 2 (plusRe (.cls true [(';', ';')])), .lit ';']

/-- `PXXROXY_CLASS\(([A-Za-z0-9_]+)\)` (a deliberately disabled
spelling of the proxy-class directive). -/
def reProxyClass : Re :=
  seqL [strRe "PXXROXY_CLASS(", .group 1 (plusRe identCls), .lit ')']

/-- `(RECURSIVE_)?STRUCT`, the one non-literal state matcher. -/
def reStateRecStruct : Re :=
  .seq (.opt (.group 1 (strRe "RECURSIVE_"))) (strRe "STRUCT")

/-- View a pattern as a state matcher (`state_re.match(current_state)`,
a prefix match). -/
def stateReOf (r : Re) : String → Bool :=
  fun st => (reMatchTop r st.toList).isSome

/-- View a pattern as a buffer matcher. -/
def patOf (r : Re) : List Char → Option ReMatch :=
  fun buf => reMatchTop r buf

/-! ## `HeaderParser`: the mutable parse model and the handlers -/

/-- The mutable state of a `HeaderParser` beyond the generic lexer
fields: the module being built, the (module-level) `type_dispatcher`,
the pending comment, and the current class/method/struct/enum being
assembled.  `current_class` is stored as its key in `Module.classes`
(the Python object is added to the dictionary as soon as it is created,
so later mutations through `current_class` are mutations of the
dictionary entry). -/
structure ParserState where
  module : ModuleM
  disp : List (String × TypeVariant)
  current_comment : List Char
  current_class : Option String
  current_method : Option MethodM
  current_struct : Option ClassGen
  current_enum : Option ClassGen
  deriving Repr, DecidableEq

/-- `HeaderParser.DEFINE` (class_parser.py:4193–4204): kind is string
when the comment-stripped matched line holds a double quote; the
constant is added only when its name is longer than three characters,
does not begin with an underscore, equals its own upper-casing and is
not blacklisted. -/
def hDefine (ps : ParserState) (m : ReMatch) : ParserState :=
  let line := takeBeforeCommentOpen m.matched
  let type := if line.contains '"' then "string" else "integer"
  let name := groupStr m 1
  if 3 < name.length ∧ ¬ pyStartsWith name "_" ∧ pyIsUpperEq name.toList ∧
      name ∉ ps.module.constants_blacklist then
    { ps with module := ps.module.addConstant name type }
  else ps

/-- `HeaderParser.CLASS_START` (class_parser.py:4208–4222): clone the
base class when it is defined (a missing base or an uncloneable
generator falls back to a fresh `ClassGenerator`), attach the pending
comment and the modifier group, register the class in the module and
both wrapper spellings in the dispatcher. -/
def hClassStart (ps : ParserState) (m : ReMatch) : ParserState :=
  let class_name := groupStr m 2
  let base_class_name := groupStr m 3
  let cc : ClassGen :=
    match dictGet ps.module.classes base_class_name with
    | some base =>
      match classClone base class_name with
      | some c => c
      | none => mkClassGenerator class_name base_class_name
    | none => mkClassGenerator class_name base_class_name
  let cc := { cc with
    docstring := ps.current_comment.asString
    modifier := setAdd cc.modifier (groupRaw m 1) }
  { ps with
    module := { ps.module with
      classes := dictSet ps.module.classes class_name cc }
    disp := dictSet (dictSet ps.disp class_name .wrapper)
      (class_name ++ " *") .pointerWrapper
    current_class := some class_name }

/-- `HeaderParser.METHOD_START` (class_parser.py:4226–4254): PRIVATE
methods are dropped; a `Con…` method whose return type is its own
class becomes the constructor; `iternext` / `__iter__` / `__str__`
have special kinds and mark the class ITERATOR / SELF_ITER / TP_STR. -/
def hMethodStart (ps : ParserState) (m : ReMatch) : ParserState :=
  let return_type := groupStr m 2
  let method_name := groupStr m 5
  let modifier := (groupRaw m 1).getD ""
  if pyInStr "PRIVATE" modifier then ps
  else
    match ps.current_class with
    | none => ps
    | some key =>
      match dictGet ps.module.classes key with
      | none => ps
      | some cls =>
        let kind : MethodKind :=
          if return_type = cls.class_name ∧ pyStartsWith method_name "Con"
          then .constructor
          else if method_name = "iternext" then .iterator
          else if method_name = "__iter__" then .selfIterator
          else .plain
        let cls :=
          if kind = .iterator then
            { cls with modifier := setAdd cls.modifier (some "ITERATOR") }
          else if kind = .selfIterator then
            { cls with modifier := setAdd cls.modifier (some "SELF_ITER") }
          else if method_name = "__str__" then
            { cls with modifier := setAdd cls.modifier (some "TP_STR") }
          else cls
        let meth := { mkMethod ps.disp kind cls.class_name
            cls.base_class_name method_name [] return_type with
          docstring := ps.current_comment.asString
          modifier := modifier }
        { ps with
          module := { ps.module with
            classes := dictSet ps.module.classes key cls }
          current_method := some meth }

/-- `HeaderParser.METHOD_ARG` (class_parser.py:4256–4260). -/
def hMethodArg (ps : ParserState) (m : ReMatch) : ParserState :=
  let name := groupStr m 2
  let type := groupStr m 1
  match ps.current_method with
  | some cm =>
    let cm := { cm with args := addArg ps.disp cm.args type name }
    { ps with current_method := some cm }
  | none => ps

/-- The replace-or-append of `HeaderParser.METHOD_END`
(class_parser.py:4269–4279): the first existing method with the same
name is replaced in place; otherwise the new method is appended. -/
def methodEndUpdate (ms : List MethodM) (nm : MethodM) : List MethodM :=
  match ms with
  | [] => [nm]
  | m0 :: rest =>
    if m0.name = nm.name then nm :: rest
    else m0 :: methodEndUpdate rest nm

/-- `HeaderParser.METHOD_END` (class_parser.py:4262–4281). -/
def hMethodEnd (ps : ParserState) : ParserState :=
  match ps.current_method with
  | none => ps
  | some cm =>
    match ps.current_class with
    | none => { ps with current_method := none }
    | some key =>
      match dictGet ps.module.classes key with
      | none => { ps with current_method := none }
      | some cls =>
        let cls :=
          if cm.kind = .constructor ∨ cm.kind = .emptyConstructor then
            { cls with constructor := some cm }
          else { cls with methods := methodEndUpdate cls.methods cm }
        { ps with
          module := { ps.module with
            classes := dictSet ps.module.classes key cls }
          current_method := none }

/-- `HeaderParser.CLASS_ATTRIBUTE` (class_parser.py:4283–4287). -/
def hClassAttribute (ps : ParserState) (m : ReMatch) : ParserState :=
  let modifier := (groupRaw m 1).getD ""
  let type := groupStr m 2
  let name := groupStr m 3
  match ps.current_class with
  | none => ps
  | some key =>
    match dictGet ps.module.classes key with
    | none => ps
    | some cls =>
      { ps with module := { ps.module with
          classes := dictSet ps.module.classes key
            (classAddAttribute ps.module ps.disp cls name type modifier) } }

/-- `HeaderParser.STRUCT_START` / `TYPEDEF_STRUCT_START`
(class_parser.py:4294–4301). -/
def hStructStart (ps : ParserState) (m : ReMatch) : ParserState :=
  let cs := { mkStructGenerator (groupStr m 2) with
    docstring := ps.current_comment.asString
    modifier := setAdd [] (groupRaw m 1) }
  { ps with current_struct := some cs }

/-- Anonymous `typedef struct {`: no name, no modifier group. -/
def hTypedefStructStart (ps : ParserState) : ParserState :=
  let cs := { mkStructGenerator "" with
    docstring := ps.current_comment.asString }
  { ps with current_struct := some cs }

/-- `HeaderParser.STRUCT_ATTRIBUTE` (class_parser.py:4303–4311). -/
def hStructAttribute (ps : ParserState) (m : ReMatch) : ParserState :=
  let name := groupStr m 2
  let type := groupStr m 1
  let asize := (m.group 3).map fun l => (pyStrip l).asString
  match ps.current_struct with
  | some cs =>
    let cs := classAddAttribute ps.module ps.disp cs name type "" asize
    { ps with current_struct := some cs }
  | none => ps

/-- `HeaderParser.STRUCT_ATTRIBUTE_PTR` (class_parser.py:4313–4316). -/
def hStructAttributePtr (ps : ParserState) (m : ReMatch) : ParserState :=
  let type := groupStr m 1 ++ " *"
  let name := groupStr m 2
  match ps.current_struct with
  | some cs =>
    let cs := classAddAttribute ps.module ps.disp cs name type ""
    { ps with current_struct := some cs }
  | none => ps

/-- `HeaderParser.STRUCT_END` (class_parser.py:4318–4322). -/
def hStructEnd (ps : ParserState) : ParserState :=
  match ps.current_struct with
  | none => ps
  | some cs =>
    { ps with
      module := { ps.module with
        classes := dictSet ps.module.classes cs.class_name cs }
      disp := dictSet (dictSet ps.disp cs.class_name .structWrapper)
        (cs.class_name ++ " *") .pointerStructWrapper
      current_struct := none }

/-- `HeaderParser.TYPEDEF_STRUCT_END` (class_parser.py:4324–4327). -/
def hTypedefStructEnd (ps : ParserState) (m : ReMatch) : ParserState :=
  match ps.current_struct with
  | none => ps
  | some cs =>
    hStructEnd { ps with
      current_struct := some { cs with class_name := groupStr m 1 } }

/-- `HeaderParser.ENUM_START` / `TYPEDEF_ENUM_START`
(class_parser.py:4331–4335). -/
def hEnumStart (ps : ParserState) (name : String) : ParserState :=
  { ps with current_enum := some (mkEnum name) }

/-- `HeaderParser.ENUM_VALUE` (class_parser.py:4337–4338). -/
def hEnumValue (ps : ParserState) (m : ReMatch) : ParserState :=
  match ps.current_enum with
  | some en =>
    let en := { en with values := en.values ++ [groupStr m 1] }
    { ps with current_enum := some en }
  | none => ps

/-- `HeaderParser.ENUM_END` (class_parser.py:4340–4352): the enum is
stored under its name, each value is exported as an integer constant,
and the name dispatches to `EnumType`. -/
def hEnumEnd (ps : ParserState) : ParserState :=
  match ps.current_enum with
  | none => ps
  | some en =>
    let mod := { ps.module with
      classes := dictSet ps.module.classes en.enumName en }
    let mod := en.values.foldl
      (fun mm v => mm.addConstant v "integer") mod
    { ps with
      module := mod
      disp := dictSet ps.disp en.enumName .enumType
      current_enum := none }

/-- `HeaderParser.TYPEDEFED_ENUM_END` (class_parser.py:4354–4356):
name the anonymous enum (unstripped group), then the usual ending. -/
def hTypedefEnumEnd (ps : ParserState) (m : ReMatch) : ParserState :=
  match ps.current_enum with
  | none => ps
  | some en =>
    let nm := (groupRaw m 1).getD ""
    hEnumEnd { ps with
      current_enum := some { en with enumName := nm, class_name := nm } }

/-- `HeaderParser.BIND_STRUCT` (class_parser.py:4358–4360). -/
def hBindStruct (ps : ParserState) (m : ReMatch) : ParserState :=
  let g := (groupRaw m 1).getD ""
  { ps with module := { ps.module with
      active_structs :=
        setAdd (setAdd ps.module.active_structs g) (g ++ " *") } }

/-- `HeaderParser.SIMPLE_TYPEDEF` (class_parser.py:4362–4367). -/
def hSimpleTypedef (ps : ParserState) (m : ReMatch) : ParserState :=
  let old := groupStr m 1
  let new := groupStr m 2
  match dictGet ps.disp old with
  | some v => { ps with disp := dictSet ps.disp new v }
  | none => ps

/-- The method-selection loop of `HeaderParser.PROXY_CLASS`
(class_parser.py:4386–4388): a proxy is created only for methods whose
first character is not an underscore.  (The surrounding handler cannot
run to completion in this program: its rule is spelled
`PXXROXY_CLASS` and the `ProxyClassGenerator` name it references is
undefined, so reaching it would abort the parse.) -/
def proxyClassMethods (proxied_class : ClassGen) : List MethodM :=
  proxied_class.methods.filter fun meth =>
    match meth.name.toList with
    | c :: _ => c ≠ '_'
    | [] => false

/-- The handler dispatch of the parser: Python's
`getattr(self, t, self.default_handler)` over the action names that
occur in the table, plus the two primitive actions of the base
`Lexer`; unknown names fall through to the no-op default handler.
`PUSH_STATE`/`POP_STATE` keep the saved states with the most recent at
the head. -/
def headerHandlers : Handlers ParserState := fun t m env =>
  match t with
  | "PUSH_STATE" =>
    ({ env with stateStack := env.state :: env.stateStack }, none)
  | "POP_STATE" =>
    match env.stateStack with
    | [] => (env, none)
    | top :: rest => ({ env with stateStack := rest }, some top)
  | "COMMENT" =>
    ({ env with model := { env.model with
        current_comment :=
          env.model.current_comment ++ ((m.group 1).getD []) ++ ['\n'] } },
      none)
  | "COMMENT_END" =>
    ({ env with model := { env.model with
        current_comment :=
          env.model.current_comment ++ ((m.group 1).getD []) } }, none)
  | "CLEAR_COMMENT" =>
    ({ env with model := { env.model with current_comment := [] } }, none)
  | "DEFINE" => ({ env with model := hDefine env.model m }, none)
  | "CLASS_START" => ({ env with model := hClassStart env.model m }, none)
  | "METHOD_START" =>
    ({ env with model := hMethodStart env.model m }, none)
  | "METHOD_ARG" => ({ env with model := hMethodArg env.model m }, none)
  | "METHOD_END" => ({ env with model := hMethodEnd env.model }, none)
  | "CLASS_ATTRIBUTE" =>
    ({ env with model := hClassAttribute env.model m }, none)
  | "END_CLASS" =>
    ({ env with model := { env.model with current_class := none } }, none)
  | "STRUCT_START" => ({ env with model := hStructStart env.model m }, none)
  | "TYPEDEF_STRUCT_START" =>
    ({ env with model := hTypedefStructStart env.model }, none)
  | "STRUCT_ATTRIBUTE" =>
    ({ env with model := hStructAttribute env.model m }, none)
  | "STRUCT_ATTRIBUTE_PTR" =>
    ({ env with model := hStructAttributePtr env.model m }, none)
  | "STRUCT_END" => ({ env with model := hStructEnd env.model }, none)
  | "TYPEDEF_STRUCT_END" =>
    ({ env with model := hTypedefStructEnd env.model m }, none)
  | "ENUM_START" =>
    ({ env with model := hEnumStart env.model (groupStr m 1) }, none)
  | "TYPEDEF_ENUM_START" =>
    ({ env with model := hEnumStart env.model "" }, none)
  | "ENUM_VALUE" => ({ env with model := hEnumValue env.model m }, none)
  | "ENUM_END" => ({ env with model := hEnumEnd env.model }, none)
  | "TYPEDEFED_ENUM_END" =>
    ({ env with model := hTypedefEnumEnd env.model m }, none)
  | "BIND_STRUCT" => ({ env with model := hBindStruct env.model m }, none)
  | "SIMPLE_TYPEDEF" =>
    ({ env with model := hSimpleTypedef env.model m }, none)
  | _ => (env, none)

/-- The declared rule table `HeaderParser.tokens`
(class_parser.py:4093–4169), row for row. -/
def headerTokens : List (Rule ParserState) := [
  ⟨stateReOf (strRe "INITIAL"), patOf reDefineStart, "PUSH_STATE",
    some "DEFINE"⟩,
  ⟨stateReOf (strRe "DEFINE"), patOf reDefineBody, "DEFINE,POP_STATE",
    none⟩,
  ⟨stateReOf (strRe "DEFINE"), patOf reDefineNL, "POP_STATE", none⟩,
  ⟨stateReOf (strRe "DEFINE"), patOf reDefineMacro, "POP_STATE", none⟩,
  ⟨stateReOf .any, patOf reCommentStart, "PUSH_STATE", some "COMMENT"⟩,
  ⟨stateReOf (strRe "COMMENT"), patOf reCommentEnd,
    "COMMENT_END,POP_STATE", none⟩,
  ⟨stateReOf (strRe "COMMENT"), patOf reCommentBody, "COMMENT", none⟩,
  ⟨stateReOf .any, patOf reCppComment, "COMMENT", none⟩,
  ⟨stateReOf .any, patOf reBlankLine, "CLEAR_COMMENT", none⟩,
  ⟨stateReOf .any, patOf reWs, "SPACE", none⟩,
  ⟨stateReOf .any, patOf reBackslashNL, "SPACE", none⟩,
  ⟨stateReOf (strRe "INITIAL"), patOf reClassStart,
    "PUSH_STATE,CLASS_START", some "CLASS"⟩,
  ⟨stateReOf (strRe "CLASS"), patOf reMethodStart,
    "PUSH_STATE,METHOD_START", some "METHOD"⟩,
  ⟨stateReOf (strRe "METHOD"), patOf reMethodArg, "METHOD_ARG", none⟩,
  ⟨stateReOf (strRe "METHOD"), patOf reMethodEnd, "POP_STATE,METHOD_END",
    none⟩,
  ⟨stateReOf (strRe "CLASS"), patOf reClassAttr, "CLASS_ATTRIBUTE",
    none⟩,
  ⟨stateReOf (strRe "CLASS"), patOf reEndClass, "END_CLASS,POP_STATE",
    none⟩,
  ⟨stateReOf (strRe "INITIAL"), patOf reStructStart,
    "PUSH_STATE,STRUCT_START", some "STRUCT"⟩,
  ⟨stateReOf (strRe "INITIAL"), patOf reTypedefStructStart,
    "PUSH_STATE,TYPEDEF_STRUCT_START", some "STRUCT"⟩,
  ⟨stateReOf (strRe "STRUCT"), patOf reStructAttr, "STRUCT_ATTRIBUTE",
    none⟩,
  ⟨stateReOf (strRe "STRUCT"), patOf reStructAttrPtr,
    "STRUCT_ATTRIBUTE_PTR", none⟩,
  ⟨stateReOf (strRe "STRUCT"), patOf reTypedefStructEnd,
    "POP_STATE,TYPEDEF_STRUCT_END", none⟩,
  ⟨stateReOf (strRe "STRUCT"), patOf reCloseBrace, "POP_STATE,STRUCT_END",
    none⟩,
  ⟨stateReOf reStateRecStruct, patOf reRecStructStart, "PUSH_STATE",
    some "RECURSIVE_STRUCT"⟩,
  ⟨stateReOf (strRe "RECURSIVE_STRUCT"), patOf reRecStructEnd,
    "POP_STATE", none⟩,
  ⟨stateReOf (strRe "INITIAL"), patOf reEnumStart, "PUSH_STATE,ENUM_START",
    some "ENUM"⟩,
  ⟨stateReOf (strRe "INITIAL"), patOf reTypedefEnumStart,
    "PUSH_STATE,TYPEDEF_ENUM_START", some "ENUM"⟩,
  ⟨stateReOf (strRe "ENUM"), patOf reEnumValue, "ENUM_VALUE", none⟩,
  ⟨stateReOf (strRe "ENUM"), patOf reTypedefEnumEnd,
    "POP_STATE,TYPEDEFED_ENUM_END", none⟩,
  ⟨stateReOf (strRe "ENUM"), patOf reCloseBrace, "POP_STATE,ENUM_END",
    none⟩,
  ⟨stateReOf (strRe "INITIAL"), patOf reBindStruct, "BIND_STRUCT", none⟩,
  ⟨stateReOf (strRe "INITIAL"), patOf reSimpleTypedef, "SIMPLE_TYPEDEF",
    none⟩,
  ⟨stateReOf (strRe "INITIAL"), patOf reProxyClass, "PROXY_CLASS", none⟩]

/-! ## The parse driver -/

/-- `while self.next_token(): pass` (`Lexer.close` /
`SelfFeederMixIn.parse_fd`); every rule pattern of this table consumes
at least one byte and error recovery consumes one, so
`buffer.length + 1` rounds of fuel always drain the buffer. -/
def drain {σ : Type} (rules : List (Rule σ)) (handlers : Handlers σ) :
    Nat → LexState σ → LexState σ
  | 0, s => s
  | fuel + 1, s =>
    match next_token rules handlers true s with
    | (s', some _) => drain rules handlers fuel s'
    | (s', none) => s'

/-- `Lexer.feed`. -/
def feed {σ : Type} (s : LexState σ) (data : String) : LexState σ :=
  { s with buffer := s.buffer ++ data.toList }

/-- `SelfFeederMixIn.parse_fd`: feed the whole input, then drain. -/
def parse_fd {σ : Type} (rules : List (Rule σ)) (handlers : Handlers σ)
    (s : LexState σ) (data : String) : LexState σ :=
  let s := feed s data
  drain rules handlers (s.buffer.length + 1) s

/-- The parse model right after `HeaderParser.__init__`
(class_parser.py:4171–4180): a fresh module named `pytsk3`, the
pristine dispatcher, and the built-in
`// Base object\nCLASS(Object, Obj)\nEND_CLASS\n` declaration parsed
once. -/
def headerParserBoot : LexState ParserState :=
  parse_fd headerTokens headerHandlers
    ⟨"INITIAL", [], [], 0, [], 0,
      ⟨mkModule "pytsk3", typeDispatcher0, [], none, none, none, none⟩⟩
    "// Base object\nCLASS(Object, Obj)\nEND_CLASS\n"

/-- One full pass of a header text through the parser. -/
def parseOnce (s : LexState ParserState) (text : String) :
    LexState ParserState :=
  parse_fd headerTokens headerHandlers s text

/-- `HeaderParser.parse_filenames` (class_parser.py:4392–4398) on one
header: the driver runs the whole input through the parser twice. -/
def parseTwice (text : String) : LexState ParserState :=
  parseOnce (parseOnce headerParserBoot text) text

/-! ## Code-emission models used by the specification's claims -/

/-- The trampoline creation of `ClassGenerator.prototypes`
(class_parser.py:3551–3567): every method of the class gets a
`ProxiedMethod`, except a method named `close`. -/
def prototypesProxiedNames (c : ClassGen) : List String :=
  (c.methods.filter fun meth => meth.name ≠ "close").map MethodM.name

/-- The proxy installation of `ConstructorMethod.initialise_proxies`
(class_parser.py:2766–2789): the generated
`py<Class>_initialize_proxies` function installs a proxy for each
method of `module.classes[class_name]`, skipping methods whose name
starts with an underscore and the method named `close`. -/
def initialiseProxiesInstalledNames (mod : ModuleM) (class_name : String) :
    List String :=
  match dictGet mod.classes class_name with
  | some c =>
    (c.methods.filter fun meth =>
      ¬ pyStartsWith meth.name "_" ∧ meth.name ≠ "close").map MethodM.name
  | none => []

/-- The `PyArg_ParseTupleAndKeywords` format string built by
`Method.write_local_vars` (class_parser.py:2350–2392): the `buildstr`
tags of the arguments, mandatory (no default for the argument's keyword
name) first, then `|` and the optional ones (arguments with an empty
`buildstr` never occupy a slot). -/
def parseLineOf (m : MethodM) : String :=
  let m := findOptionalVars m
  let hasDefault : ArgM → Bool := fun t =>
    match t.pythonName with
    | some n => (dictGet m.defaults n).isSome
    | none => false
  let mandatory := m.args.foldl
    (fun acc t =>
      if t.variant.buildstr ≠ "" ∧ ¬ hasDefault t then
        acc ++ t.variant.buildstr
      else acc) ""
  let optional := m.args.foldl
    (fun acc t =>
      if t.variant.buildstr ≠ "" ∧ hasDefault t then
        acc ++ t.variant.buildstr
      else acc) ""
  if optional ≠ "" then mandatory ++ "|" ++ optional else mandatory

/-- Is the named class present and active? -/
def activeName (mod : ModuleM) (n : String) : Bool :=
  match dictGet mod.classes n with
  | some c => isActive mod c
  | none => false

/-- A successful lookup means the binding is in the table. -/
theorem dictGet_mem {α : Type} {d : List (String × α)} {k : String}
    {v : α} (h : dictGet d k = some v) : (k, v) ∈ d := by
  induction d with
  | nil => simp [dictGet] at h
  | cons p rest ih =>
    obtain ⟨k', v'⟩ := p
    by_cases hk : k' = k
    · subst hk
      simp [dictGet] at h
      subst h
      exact List.mem_cons_self _ _
    · simp [dictGet, hk] at h
      exact List.mem_cons_of_mem _ (ih h)

/-- A successful lookup means the key occurs in the key list. -/
theorem dictGet_key_mem {α : Type} {d : List (String × α)} {k : String}
    {v : α} (h : dictGet d k = some v) : k ∈ d.map Prod.fst :=
  List.mem_map.mpr ⟨(k, v), dictGet_mem h, rfl⟩

/-- Growing the visited set cannot grow the set of unvisited keys. -/
theorem length_filter_visit_le (keys done : List String) (k : String) :
    (keys.filter fun x => decide (x ∉ done ++ [k])).length ≤
    (keys.filter fun x => decide (x ∉ done)).length := by
  induction keys with
  | nil => simp
  | cons a rest ih =>
    simp only [List.filter_cons, decide_eq_true_eq]
    by_cases h2 : a ∉ done ++ [k]
    · have h1 : a ∉ done := fun hx => h2 (List.mem_append_left _ hx)
      rw [if_pos h2, if_pos h1]
      simpa using Nat.succ_le_succ ih
    · rw [if_neg h2]
      by_cases h1 : a ∉ done
      · rw [if_pos h1]
        simpa using Nat.le_succ_of_le ih
      · rw [if_neg h1]
        exact ih

/-- Visiting a fresh key strictly shrinks the set of unvisited keys
(termination measure of `Module.initialise_class`). -/
theorem length_filter_visit_lt (keys done : List String) (k : String)
    (hk : k ∈ keys) (hnd : k ∉ done) :
    (keys.filter fun x => decide (x ∉ done ++ [k])).length <
    (keys.filter fun x => decide (x ∉ done)).length := by
  induction keys with
  | nil => cases hk
  | cons a rest ih =>
    simp only [List.filter_cons, decide_eq_true_eq]
    by_cases h2 : a ∉ done ++ [k]
    · have h1 : a ∉ done := fun hx => h2 (List.mem_append_left _ hx)
      rw [if_pos h2, if_pos h1]
      have hk' : k ∈ rest := by
        rcases List.mem_cons.mp hk with rfl | h
        · exact absurd (List.mem_append_right _ (List.mem_singleton.mpr rfl))
            h2
        · exact h
      simpa using Nat.succ_lt_succ (ih hk')
    · rw [if_neg h2]
      by_cases h1 : a ∉ done
      · rw [if_pos h1]
        have := length_filter_visit_le rest done k
        simpa using Nat.lt_succ_of_le this
      · rw [if_neg h1]
        have hk' : k ∈ rest := by
          rcases List.mem_cons.mp hk with rfl | h
          · exact absurd hnd h1
          · exact h
        exact ih hk'

/-- `Module.initialise_class` (class_parser.py:728–759): the recursive
ensure-written initialisation.  Returns the updated visited set and the
list of classes whose type-registration block was written by this call,
in emission order.  A repeated visit returns at once; the visited set
is extended before anything else; an active class first ensures its
(present and active) base is written, then writes its own
registration.  (The `none` lookup branch models the `KeyError` Python
would raise — `Module.write` only passes existing keys.) -/
def initialise_class (mod : ModuleM) (class_name : String)
    (done : List String) : List String × List String :=
  if hguard : done ≠ [] ∧ class_name ∈ done then (done, [])
  else
    let done1 := done ++ [class_name]
    match hcls : dictGet mod.classes class_name with
    | none => (done1, [])
    | some cls =>
      if isActive mod cls then
        match dictGet mod.classes cls.base_class_name with
        | some base =>
          if isActive mod base then
            have hmem : class_name ∈ mod.classes.map Prod.fst :=
              dictGet_key_mem hcls
            let r := initialise_class mod cls.base_class_name done1
            (r.1, r.2 ++ [class_name])
          else (done1, [class_name])
        | none => (done1, [class_name])
      else (done1, [])
  termination_by
    ((mod.classes.map Prod.fst).filter fun x => decide (x ∉ done)).length
  decreasing_by
    refine length_filter_visit_lt _ done class_name hmem ?_
    intro hin
    exact hguard ⟨List.ne_nil_of_mem hin, hin⟩

/-- `b`'s registration is emitted strictly before `n`'s in the
emission list `E`. -/
def emittedBefore (E : List String) (b n : String) : Prop :=
  ∃ E1 E2, E = E1 ++ n :: E2 ∧ b ∈ E1

/-- The inheritance-ordering invariant of an emission list: every
emitted class whose base is present and active has that base emitted
strictly before it. -/
def OrdInv (mod : ModuleM) (E : List String) : Prop :=
  ∀ n cls, dictGet mod.classes n = some cls → n ∈ E →
    activeName mod cls.base_class_name = true →
    emittedBefore E cls.base_class_name n

/-- A rank function witnessing that the base-class links of the table
form a forest (each link strictly decreases the rank): the "any
inheritance forest" side condition of the claim. -/
def ForestRank (mod : ModuleM) (rk : String → Nat) : Prop :=
  ∀ (n : String) (cls : ClassGen), dictGet mod.classes n = some cls →
    (dictGet mod.classes cls.base_class_name).isSome = true →
    rk cls.base_class_name < rk n

/-- Decidable check of `ForestRank` over the finite table. -/
def forestRankB (mod : ModuleM) (rk : String → Nat) : Bool :=
  mod.classes.all fun p =>
    match dictGet mod.classes p.1 with
    | some cls =>
      match dictGet mod.classes cls.base_class_name with
      | some _ => decide (rk cls.base_class_name < rk p.1)
      | none => true
    | none => true

/-- A small concrete class table for evaluating the initialisation
order: `Object` (base absent), `Foo` and `Hidden` derive from it,
`Hidden` is PRIVATE (inactive). -/
def demoModule : ModuleM :=
  { mkModule "pytsk3" with classes :=
      [("Object", mkClassGenerator "Object" "Obj"),
       ("Foo", mkClassGenerator "Foo" "Object"),
       ("Hidden", { mkClassGenerator "Hidden" "Object" with
          modifier := [some "PRIVATE"] })] }

/-- A rank function witnessing that `demoModule` is a forest. -/
def demoRank : String → Nat := fun n => if n = "Object" then 0 else 1

/-- The header text of the specification's Scenario A. -/
def textScenarioA : String :=
  "CLASS(Foo, Obj)\nint METHOD(Foo, Bar, IN int, x);\nEND_CLASS\n"

/-- The header text of the specification's Scenario E: the derived
class appears before its base's own declaration block. -/
def textScenarioE : String :=
  "CLASS(Derived, Base)\nEND_CLASS\nCLASS(Base, Object)\nint METHOD(Base, foo);\nEND_CLASS\n"

/-- Claim C7 as stated: parsing Scenario A produces a class `Foo` with
exactly one method `Bar` holding exactly one IN-integer argument named
`x`, an integer return type, and the argument format string `"i"`. -/
def claimC7Stated : Prop :=
  (dictGet (parseTwice textScenarioA).model.module.classes "Foo").map
    (fun foo => foo.methods.map fun b =>
      (b.name, b.args.map (fun a => (a.variant, a.name)),
        b.return_type.variant, parseLineOf b)) =
  some [("Bar", [(TypeVariant.integer, "x")], TypeVariant.integer, "i")]

/-- Claim C5 as stated: for every class, `close` is never trampolined
and never proxy-installed, while every other method both receives a
trampoline and has a proxy installed. -/
def claimC5Stated : Prop :=
  ∀ (mod : ModuleM) (class_name : String) (c : ClassGen),
    dictGet mod.classes class_name = some c →
    ("close" ∉ prototypesProxiedNames c ∧
     "close" ∉ initialiseProxiesInstalledNames mod class_name ∧
     ∀ meth ∈ c.methods, meth.name ≠ "close" →
       meth.name ∈ prototypesProxiedNames c ∧
       meth.name ∈ initialiseProxiesInstalledNames mod class_name)

/-- The initialisation loop of `Module.write`
(class_parser.py:909–914): one shared visited set, all classes in table
order; result is the full emission order of type registrations. -/
def writeInitOrder (mod : ModuleM) : List String :=
  ((mod.classes.map Prod.fst).foldl
    (fun (acc : List String × List String) class_name =>
      let r := initialise_class mod class_name acc.1
      (r.1, acc.2 ++ r.2))
    ([], [])).2

end Pytsk

namespace Pytsk

/-! Basic facts about rule selection. -/

theorem findRule_skip {σ : Type} (rules : List (Rule σ)) (r : Rule σ)
    (state : String) (buffer : List Char)
    (h : r.stateMatch state = false ∨ r.patMatch buffer = none) :
    findRule (r :: rules) state buffer = findRule rules state buffer := by
  rcases h with h | h
  · simp [findRule, h]
  · by_cases hs : r.stateMatch state
    · simp [findRule, hs, h]
    · simp [findRule, hs]

theorem findRule_prefix_skip {σ : Type} (pre rules : List (Rule σ))
    (state : String) (buffer : List Char)
    (h : ∀ r ∈ pre, r.stateMatch state = false ∨ r.patMatch buffer = none) :
    findRule (pre ++ rules) state buffer = findRule rules state buffer := by
  induction pre with
  | nil => rfl
  | cons r rest ih =>
    rw [List.cons_append, findRule_skip _ r _ _ (h r (by simp))]
    exact ih fun r' hr' => h r' (by simp [hr'])

theorem findRule_hit {σ : Type} (rules : List (Rule σ)) (r : Rule σ)
    (state : String) (buffer : List Char) (m : ReMatch)
    (hs : r.stateMatch state = true) (hp : r.patMatch buffer = some m) :
    findRule (r :: rules) state buffer = some (r, m) := by
  simp [findRule, hs, hp]

/-- C1: `next_token()` examines the rules in declared table order,
considers only rules whose state-matcher matches the current state, and
applies the first such rule whose pattern matches the start of the
buffer (first match wins — the rules after the hit, which might match a
longer prefix, are never consulted); on a match the matched prefix is
removed from the buffer, appended to the processed log, and the
processed byte count advances by exactly the match length. -/
theorem next_token_first_match_consumes {σ : Type}
    (pre post : List (Rule σ)) (r : Rule σ) (handlers : Handlers σ)
    (endOfFeed : Bool) (s : LexState σ) (m : ReMatch)
    (hpre : ∀ r' ∈ pre,
      r'.stateMatch s.state = false ∨ r'.patMatch s.buffer = none)
    (hs : r.stateMatch s.state = true)
    (hp : r.patMatch s.buffer = some m) :
    (next_token (pre ++ r :: post) handlers endOfFeed s).2 = some r.token ∧
    (next_token (pre ++ r :: post) handlers endOfFeed s).1.buffer =
      s.buffer.drop m.endPos ∧
    (next_token (pre ++ r :: post) handlers endOfFeed s).1.processedBuffer =
      s.processedBuffer ++ s.buffer.take m.endPos ∧
    (next_token (pre ++ r :: post) handlers endOfFeed s).1.processed =
      s.processed + m.endPos := by
  unfold next_token
  rw [findRule_prefix_skip pre _ _ _ hpre, findRule_hit post r _ _ m hs hp]
  dsimp only
  rcases runActions handlers m (splitActions r.token)
      ⟨s.state, s.stateStack, s.error, s.model⟩ r.next with ⟨env, next⟩
  rcases next with _ | n
  · simp
  · by_cases hn : n = "" <;> simp [hn]

/-- C1 witness: a concrete two-rule table over buffer `"abc"`; the
first rule's state-matcher rejects, the second matches two bytes. -/
theorem next_token_first_match_consumes_witness :
    (next_token (σ := Unit)
      ([⟨fun _ => false, fun _ => some ⟨3, "abc".toList, []⟩, "T0", none⟩] ++
        ⟨fun st => st = "INITIAL",
          fun buf => if buf.take 2 = "ab".toList then
            some ⟨2, "ab".toList, []⟩ else none, "T1", none⟩ :: [])
      (fun _ _ env => (env, none)) true
      ⟨"INITIAL", [], "abc".toList, 5, [], 0, ()⟩).2 = some "T1" ∧
    (next_token (σ := Unit)
      ([⟨fun _ => false, fun _ => some ⟨3, "abc".toList, []⟩, "T0", none⟩] ++
        ⟨fun st => st = "INITIAL",
          fun buf => if buf.take 2 = "ab".toList then
            some ⟨2, "ab".toList, []⟩ else none, "T1", none⟩ :: [])
      (fun _ _ env => (env, none)) true
      ⟨"INITIAL", [], "abc".toList, 5, [], 0, ()⟩).1.buffer =
        "abc".toList.drop 2 ∧
    (next_token (σ := Unit)
      ([⟨fun _ => false, fun _ => some ⟨3, "abc".toList, []⟩, "T0", none⟩] ++
        ⟨fun st => st = "INITIAL",
          fun buf => if buf.take 2 = "ab".toList then
            some ⟨2, "ab".toList, []⟩ else none, "T1", none⟩ :: [])
      (fun _ _ env => (env, none)) true
      ⟨"INITIAL", [], "abc".toList, 5, [], 0, ()⟩).1.processedBuffer =
        [] ++ "abc".toList.take 2 ∧
    (next_token (σ := Unit)
      ([⟨fun _ => false, fun _ => some ⟨3, "abc".toList, []⟩, "T0", none⟩] ++
        ⟨fun st => st = "INITIAL",
          fun buf => if buf.take 2 = "ab".toList then
            some ⟨2, "ab".toList, []⟩ else none, "T1", none⟩ :: [])
      (fun _ _ env => (env, none)) true
      ⟨"INITIAL", [], "abc".toList, 5, [], 0, ()⟩).1.processed = 5 + 2 :=
  next_token_first_match_consumes _ _ _ _ _ _ ⟨2, "ab".toList, []⟩
    (fun r' hr' => by
      simp only [List.mem_singleton] at hr'
      subst hr'; left; rfl)
    rfl
    (by decide)

/-- C4: whenever no rule matches and either the buffer is non-empty at
end-of-feed or more than 1024 bytes are buffered, `next_token()`
discards exactly one byte from the front of the buffer (moving it to
the processed log), increments the error counter by exactly one, and
returns `"ERROR"`; the buffer strictly shrinks, so the engine cannot
live-lock on unmatchable input. -/
theorem next_token_stuck_recovery {σ : Type}
    (rules : List (Rule σ)) (handlers : Handlers σ)
    (endOfFeed : Bool) (s : LexState σ)
    (hnone : findRule rules s.state s.buffer = none)
    (hcond : (endOfFeed = true ∧ s.buffer ≠ []) ∨ 1024 < s.buffer.length) :
    next_token rules handlers endOfFeed s =
      ({ s with
          processedBuffer := s.processedBuffer ++ s.buffer.take 1
          buffer := s.buffer.drop 1
          error := s.error + 1 }, some "ERROR") ∧
    (next_token rules handlers endOfFeed s).1.buffer.length <
      s.buffer.length := by
  have hne : s.buffer ≠ [] := by
    rcases hcond with ⟨_, h⟩ | h
    · exact h
    · intro hcontra
      rw [hcontra] at h
      simp at h
  have hguard : ((endOfFeed && decide (0 < s.buffer.length)) ||
      decide (1024 < s.buffer.length)) = true := by
    rcases hcond with ⟨he, _⟩ | h
    · subst he
      simp [List.length_pos.mpr hne]
    · simp [h]
  have heq : next_token rules handlers endOfFeed s =
      ({ s with
          processedBuffer := s.processedBuffer ++ s.buffer.take 1
          buffer := s.buffer.drop 1
          error := s.error + 1 }, some "ERROR") := by
    unfold next_token
    rw [hnone, hguard]
    simp
  refine ⟨heq, ?_⟩
  rw [heq]
  simp only [List.length_drop]
  have : 0 < s.buffer.length := List.length_pos.mpr hne
  omega

/-- C4 witness: an empty rule table over a one-byte buffer at
end-of-feed. -/
theorem next_token_stuck_recovery_witness :
    next_token (σ := Unit) [] (fun _ _ env => (env, none)) true
        ⟨"INITIAL", [], ['x'], 0, [], 3, ()⟩ =
      ({ state := "INITIAL", stateStack := [], buffer := ['x'].drop 1,
         processed := 0, processedBuffer := [] ++ ['x'].take 1,
         error := 3 + 1, model := () }, some "ERROR") ∧
    (next_token (σ := Unit) [] (fun _ _ env => (env, none)) true
        ⟨"INITIAL", [], ['x'], 0, [], 3, ()⟩).1.buffer.length <
      ['x'].length :=
  next_token_stuck_recovery [] _ true _ rfl (Or.inl ⟨rfl, by decide⟩)

/-! Helper lemmas about the dictionary and set primitives. -/

theorem dictGet_dictSet_self {α : Type} (d : List (String × α))
    (k : String) (v : α) : dictGet (dictSet d k v) k = some v := by
  induction d with
  | nil => simp [dictSet, dictGet]
  | cons p rest ih =>
    obtain ⟨k', v'⟩ := p
    by_cases h : k' = k
    · subst h
      simp [dictSet, dictGet]
    · simp [dictSet, dictGet, h, ih]

theorem mem_setAdd {α : Type} [DecidableEq α] (s : List α) (x y : α) :
    y ∈ setAdd s x ↔ y ∈ s ∨ y = x := by
  unfold setAdd
  by_cases h : x ∈ s
  · simp only [if_pos h]
    constructor
    · exact Or.inl
    · rintro (hy | rfl)
      · exact hy
      · exact h
  · simp [if_neg h]

/-- C2: when `CLASS(Derived, Base)` is parsed and `Base` is already
defined (with a cloneable constructor and attribute table), the class
stored under the derived name is seeded with clones of all of Base's
methods, constructor and attributes; and the `METHOD_END` update
replaces a re-declared name at its original position in the ordered
method list — never appending a duplicate, leaving every other method's
content and relative order unchanged — while a new name is appended at
the end. -/
theorem class_clone_seeds_and_override :
    (∀ (ps : ParserState) (m : ReMatch) (base : ClassGen)
      (ctor : MethodM) (att : GetattrM),
      dictGet ps.module.classes (groupStr m 3) = some base →
      base.constructor = some ctor →
      base.attributes = some att →
      (dictGet (hClassStart ps m).module.classes (groupStr m 2)).map
        (fun c => (c.methods, c.constructor, c.attributes,
          c.base_class_name)) =
      some (base.methods.map (methodClone · (groupStr m 2)),
        some (methodClone ctor (groupStr m 2)),
        some (att.clone (groupStr m 2)), base.class_name)) ∧
    (∀ (nm old : MethodM) (pre post : List MethodM),
      old.name = nm.name →
      (∀ mm ∈ pre, mm.name ≠ nm.name) →
      methodEndUpdate (pre ++ old :: post) nm = pre ++ nm :: post) ∧
    (∀ (nm : MethodM) (ms : List MethodM),
      (∀ mm ∈ ms, mm.name ≠ nm.name) →
      methodEndUpdate ms nm = ms ++ [nm]) := by
  refine ⟨?_, ?_, ?_⟩
  · intro ps m base ctor att hbase hctor hatt
    unfold hClassStart classClone
    simp only [hbase, hctor, hatt, dictGet_dictSet_self, Option.map_some',
      mkClassGenerator]
  · intro nm old pre post hname hpre
    induction pre with
    | nil => simp [methodEndUpdate, hname]
    | cons p rest ih =>
      have hp : p.name ≠ nm.name := hpre p (by simp)
      simp only [List.cons_append, methodEndUpdate, if_neg hp,
        List.append_eq]
      rw [ih fun mm hm => hpre mm (List.mem_cons_of_mem _ hm)]
  · intro nm ms hms
    induction ms with
    | nil => simp [methodEndUpdate]
    | cons p rest ih =>
      have hp : p.name ≠ nm.name := hms p (by simp)
      simp only [methodEndUpdate, if_neg hp, List.cons_append,
        List.append_eq]
      rw [ih fun mm hm => hms mm (List.mem_cons_of_mem _ hm)]

/-- C2 witness: a concrete base class with two methods, cloned into a
class `D`; the method `g` is then re-declared and replaces in place. -/
theorem class_clone_seeds_and_override_witness :
    ((dictGet (hClassStart
        ⟨{ mkModule "pytsk3" with classes := [("B",
            { mkClassGenerator "B" "Object" with methods :=
                [mkMethod typeDispatcher0 .plain "B" "Object" "f" [] "int",
                 mkMethod typeDispatcher0 .plain "B" "Object" "g" [] "int"] })] },
          typeDispatcher0, [], none, none, none, none⟩
        ⟨12, "CLASS(D, B)\n".toList,
          [none, some ['D'], some ['B']]⟩).module.classes "D").map
      (fun c => (c.methods, c.constructor, c.attributes,
        c.base_class_name)) =
    some (([mkMethod typeDispatcher0 .plain "B" "Object" "f" [] "int",
        mkMethod typeDispatcher0 .plain "B" "Object" "g" [] "int"]).map
        (methodClone · "D"),
      some (methodClone (mkEmptyConstructor "B" "Object") "D"),
      some ((mkGetattr "B" "Object").clone "D"), "B")) ∧
    (methodEndUpdate
      ([mkMethod typeDispatcher0 .plain "D" "B" "f" [] "int"] ++
        mkMethod typeDispatcher0 .plain "D" "B" "g" [] "int" ::
        [mkMethod typeDispatcher0 .plain "D" "B" "h" [] "int"])
      (mkMethod typeDispatcher0 .plain "D" "B" "g" [] "void") =
      [mkMethod typeDispatcher0 .plain "D" "B" "f" [] "int"] ++
        mkMethod typeDispatcher0 .plain "D" "B" "g" [] "void" ::
        [mkMethod typeDispatcher0 .plain "D" "B" "h" [] "int"]) ∧
    (methodEndUpdate [mkMethod typeDispatcher0 .plain "D" "B" "f" [] "int"]
      (mkMethod typeDispatcher0 .plain "D" "B" "g" [] "void") =
      [mkMethod typeDispatcher0 .plain "D" "B" "f" [] "int"] ++
        [mkMethod typeDispatcher0 .plain "D" "B" "g" [] "void"]) := by
  refine ⟨?_, ?_, ?_⟩
  · exact class_clone_seeds_and_override.1
      ⟨{ mkModule "pytsk3" with classes := [("B",
          { mkClassGenerator "B" "Object" with methods :=
              [mkMethod typeDispatcher0 .plain "B" "Object" "f" [] "int",
               mkMethod typeDispatcher0 .plain "B" "Object" "g" [] "int"] })] },
        typeDispatcher0, [], none, none, none, none⟩
      ⟨12, "CLASS(D, B)\n".toList, [none, some ['D'], some ['B']]⟩
      { mkClassGenerator "B" "Object" with methods :=
          [mkMethod typeDispatcher0 .plain "B" "Object" "f" [] "int",
           mkMethod typeDispatcher0 .plain "B" "Object" "g" [] "int"] }
      (mkEmptyConstructor "B" "Object")
      (mkGetattr "B" "Object")
      (by decide) (by decide) (by decide)
  · exact class_clone_seeds_and_override.2.1
      (mkMethod typeDispatcher0 .plain "D" "B" "g" [] "void")
      (mkMethod typeDispatcher0 .plain "D" "B" "g" [] "int")
      [mkMethod typeDispatcher0 .plain "D" "B" "f" [] "int"]
      [mkMethod typeDispatcher0 .plain "D" "B" "h" [] "int"]
      (by decide) (by decide)
  · exact class_clone_seeds_and_override.2.2
      (mkMethod typeDispatcher0 .plain "D" "B" "g" [] "void")
      [mkMethod typeDispatcher0 .plain "D" "B" "f" [] "int"]
      (by decide)


/-- C6: a parsed `#define NAME value` line adds the constant iff the
name is longer than three characters, does not begin with an
underscore, equals its own upper-casing and is not blacklisted; the
kind is string iff the line truncated at the first `/*` holds a double
quote, and integer otherwise. -/
theorem define_constant_filter (ps : ParserState) (m : ReMatch)
    (c : String × String) :
    c ∈ (hDefine ps m).module.constants ↔
      (c ∈ ps.module.constants ∨
        (3 < (groupStr m 1).length ∧ ¬ pyStartsWith (groupStr m 1) "_" ∧
         pyIsUpperEq (groupStr m 1).toList ∧
         groupStr m 1 ∉ ps.module.constants_blacklist ∧
         c = (groupStr m 1,
           if (takeBeforeCommentOpen m.matched).contains '"' then "string"
           else "integer"))) := by
  unfold hDefine ModuleM.addConstant
  dsimp only
  by_cases hcond : 3 < (groupStr m 1).length ∧
      ¬ pyStartsWith (groupStr m 1) "_" ∧
      pyIsUpperEq (groupStr m 1).toList ∧
      groupStr m 1 ∉ ps.module.constants_blacklist
  · rw [if_pos hcond]
    simp only [mem_setAdd]
    constructor
    · rintro (hc | rfl)
      · exact Or.inl hc
      · exact Or.inr ⟨hcond.1, hcond.2.1, hcond.2.2.1, hcond.2.2.2, rfl⟩
    · rintro (hc | ⟨_, _, _, _, rfl⟩)
      · exact Or.inl hc
      · exact Or.inr rfl
  · rw [if_neg hcond]
    constructor
    · exact Or.inl
    · rintro (hc | ⟨h1, h2, h3, h4, _⟩)
      · exact hc
      · exact absurd ⟨h1, h2, h3, h4⟩ hcond

/-- C8: an argument whose type spelling resolves nowhere (neither
directly nor through the `struct X_t *` rewrite) is skipped, leaving
the argument list untouched; an unresolved return type falls back to
the void-pointer variant while the method is still built under its
name; an attribute whose type is unresolved leaves the class
unchanged — in every case the surrounding declaration survives. -/
theorem unresolved_type_soft_fail :
    (∀ (disp : List (String × TypeVariant)) (args : List ArgM)
      (type name : String),
      dictGet disp type = none →
      (match reMatchTop typedefedRe type.toList with
        | some mm => (dictGet disp (((mm.group 1).getD []).asString)).isNone
        | none => true) = true →
      addArg disp args type name = args) ∧
    (∀ (disp : List (String × TypeVariant)) (kind : MethodKind)
      (cn bn nm : String) (args : List (String × String)) (rt : String),
      dispatch disp "func_return" rt = none →
      (mkMethod disp kind cn bn nm args rt).return_type.variant =
        TypeVariant.pvoid ∧
      (mkMethod disp kind cn bn nm args rt).name = nm) ∧
    (∀ (mod : ModuleM) (disp : List (String × TypeVariant)) (c : ClassGen)
      (an at_ modif : String) (asize : Option String),
      dispatch disp an ("BORROWED " ++ at_) = none →
      classAddAttribute mod disp c an at_ modif asize = c) := by
  refine ⟨?_, ?_, ?_⟩
  · intro disp args type name h1 h2
    unfold addArg
    rw [h1]
    cases hm : reMatchTop typedefedRe type.toList with
    | none => rfl
    | some mm =>
      rw [hm] at h2
      simp only [Option.isNone_iff_eq_none] at h2
      simp only [h2]
  · intro disp kind cn bn nm args rt h
    unfold mkMethod
    rw [h]
    by_cases hk : kind = MethodKind.iterator <;> simp [hk]
  · intro mod disp c an at_ modif asize h
    unfold classAddAttribute
    dsimp only
    split
    · rfl
    · rw [h]

/-- C8 witness: the spelling `IN int` (Scenario A's argument) and an
unknown `frobnicate_t` are unresolvable; the argument is dropped, the
return type degrades to the void pointer, the attribute is skipped. -/
theorem unresolved_type_soft_fail_witness :
    (addArg typeDispatcher0
      [mkArg .integer "n" "int"] "IN int" "x" = [mkArg .integer "n" "int"]) ∧
    ((mkMethod typeDispatcher0 .plain "Foo" "Obj" "Bar" [] "IN int").return_type.variant = TypeVariant.pvoid ∧
     (mkMethod typeDispatcher0 .plain "Foo" "Obj" "Bar" [] "IN int").name = "Bar") ∧
    (classAddAttribute (mkModule "pytsk3") typeDispatcher0
      (mkClassGenerator "Foo" "Obj") "a" "frobnicate_t" "" none =
      mkClassGenerator "Foo" "Obj") :=
  ⟨unresolved_type_soft_fail.1 typeDispatcher0 [mkArg .integer "n" "int"]
      "IN int" "x" (by decide) (by decide),
   unresolved_type_soft_fail.2.1 typeDispatcher0 .plain "Foo" "Obj" "Bar"
      [] "IN int" (by decide),
   unresolved_type_soft_fail.2.2 (mkModule "pytsk3") typeDispatcher0
      (mkClassGenerator "Foo" "Obj") "a" "frobnicate_t" "" none
      (by decide)⟩

/-- C10: a method whose name begins with an underscore never has a
proxy installed by the generated `initialize_proxies` function, and a
`PROXY_CLASS` directive creates proxied methods only for methods whose
name does not start with an underscore. -/
theorem underscore_proxy_exclusion :
    (∀ (mod : ModuleM) (class_name n : String),
      pyStartsWith n "_" = true →
      n ∉ initialiseProxiesInstalledNames mod class_name) ∧
    (∀ (c : ClassGen), ∀ meth ∈ proxyClassMethods c,
      pyStartsWith meth.name "_" = false) := by
  constructor
  · intro mod class_name n hn hmem
    unfold initialiseProxiesInstalledNames at hmem
    cases hcls : dictGet mod.classes class_name with
    | none => rw [hcls] at hmem; cases hmem
    | some c =>
      rw [hcls] at hmem
      obtain ⟨meth, hmeth, rfl⟩ := List.mem_map.mp hmem
      have := (List.mem_filter.mp hmeth).2
      simp only [decide_eq_true_eq] at this
      exact this.1 hn
  · intro c meth hmem
    have := (List.mem_filter.mp hmem).2
    cases hname : meth.name.toList with
    | nil => rw [hname] at this; simp at this
    | cons ch rest =>
      rw [hname] at this
      simp only [decide_eq_true_eq] at this
      unfold pyStartsWith
      rw [hname]
      show (("_".toList).isPrefixOf (ch :: rest)) = false
      simp only [String.toList]
      show (['_'].isPrefixOf (ch :: rest)) = false
      simp only [List.isPrefixOf]
      simp [Ne.symm this]

/-- C10 witness: `_x` is never installed in a concrete table; in a
proxied class holding `_x` and `read`, the method surviving the
underscore filter does not start with an underscore. -/
theorem underscore_proxy_exclusion_witness :
    ("_x" ∉ initialiseProxiesInstalledNames
      { mkModule "pytsk3" with classes := [("K",
          { mkClassGenerator "K" "Object" with methods :=
              [mkMethod typeDispatcher0 .plain "K" "Object" "_x" [] "int"] })] }
      "K") ∧
    pyStartsWith (mkMethod typeDispatcher0 .plain "K" "Object" "read" []
      "int").name "_" = false :=
  ⟨underscore_proxy_exclusion.1 _ "K" "_x" (by decide),
   underscore_proxy_exclusion.2
    { mkClassGenerator "K" "Object" with methods :=
        [mkMethod typeDispatcher0 .plain "K" "Object" "_x" [] "int",
         mkMethod typeDispatcher0 .plain "K" "Object" "read" [] "int"] }
    (mkMethod typeDispatcher0 .plain "K" "Object" "read" [] "int")
    (by decide)⟩

/-- C5 counterexample: the claim fails as stated — a method named `_x`
is emitted and is not `close`, yet no proxy for it is installed in the
generated `initialize_proxies`. -/
theorem close_proxy_claim_counterexample : ¬ claimC5Stated := by
  intro h
  have hc := (h { mkModule "pytsk3" with classes := [("K",
      { mkClassGenerator "K" "Object" with methods :=
          [mkMethod typeDispatcher0 .plain "K" "Object" "_x" [] "int"] })] }
    "K"
    { mkClassGenerator "K" "Object" with methods :=
        [mkMethod typeDispatcher0 .plain "K" "Object" "_x" [] "int"] }
    (by decide)).2.2
    (mkMethod typeDispatcher0 .plain "K" "Object" "_x" [] "int")
    (by decide) (by decide)
  exact absurd hc.2 (by decide)

/-- C5 amended: `close` is never trampolined and never
proxy-installed; every other method receives a trampoline; and every
other method whose name does not begin with an underscore has a proxy
installed. -/
theorem close_proxy_exclusion_amended :
    ∀ (mod : ModuleM) (class_name : String) (c : ClassGen),
      dictGet mod.classes class_name = some c →
      ("close" ∉ prototypesProxiedNames c ∧
       "close" ∉ initialiseProxiesInstalledNames mod class_name ∧
       (∀ meth ∈ c.methods, meth.name ≠ "close" →
         meth.name ∈ prototypesProxiedNames c) ∧
       (∀ meth ∈ c.methods, meth.name ≠ "close" →
         pyStartsWith meth.name "_" = false →
         meth.name ∈ initialiseProxiesInstalledNames mod class_name)) := by
  intro mod class_name c hcls
  refine ⟨?_, ?_, ?_, ?_⟩
  · intro hmem
    unfold prototypesProxiedNames at hmem
    obtain ⟨meth, hmeth, hname⟩ := List.mem_map.mp hmem
    have := (List.mem_filter.mp hmeth).2
    simp only [decide_eq_true_eq] at this
    exact this hname
  · intro hmem
    unfold initialiseProxiesInstalledNames at hmem
    rw [hcls] at hmem
    obtain ⟨meth, hmeth, hname⟩ := List.mem_map.mp hmem
    have := (List.mem_filter.mp hmeth).2
    simp only [decide_eq_true_eq] at this
    exact this.2 hname
  · intro meth hmeth hname
    unfold prototypesProxiedNames
    exact List.mem_map.mpr ⟨meth,
      List.mem_filter.mpr ⟨hmeth, by simp [hname]⟩, rfl⟩
  · intro meth hmeth hname hus
    unfold initialiseProxiesInstalledNames
    rw [hcls]
    refine List.mem_map.mpr ⟨meth, List.mem_filter.mpr ⟨hmeth, ?_⟩, rfl⟩
    simp only [decide_eq_true_eq]
    exact ⟨by simp [hus], hname⟩

/-- C5 amended witness: in a class with methods `close`, `_x` and
`read`, `close` is excluded everywhere, `_x` still gets a trampoline,
and `read` also has its proxy installed. -/
theorem close_proxy_exclusion_amended_witness :
    ("close" ∉ prototypesProxiedNames
      { mkClassGenerator "K" "Object" with methods :=
          [mkMethod typeDispatcher0 .plain "K" "Object" "close" [] "int",
           mkMethod typeDispatcher0 .plain "K" "Object" "_x" [] "int",
           mkMethod typeDispatcher0 .plain "K" "Object" "read" [] "int"] } ∧
     "close" ∉ initialiseProxiesInstalledNames
      { mkModule "pytsk3" with classes := [("K",
          { mkClassGenerator "K" "Object" with methods :=
              [mkMethod typeDispatcher0 .plain "K" "Object" "close" [] "int",
               mkMethod typeDispatcher0 .plain "K" "Object" "_x" [] "int",
               mkMethod typeDispatcher0 .plain "K" "Object" "read" [] "int"] })] }
      "K" ∧
     (mkMethod typeDispatcher0 .plain "K" "Object" "_x" [] "int").name ∈
       prototypesProxiedNames
        { mkClassGenerator "K" "Object" with methods :=
            [mkMethod typeDispatcher0 .plain "K" "Object" "close" [] "int",
             mkMethod typeDispatcher0 .plain "K" "Object" "_x" [] "int",
             mkMethod typeDispatcher0 .plain "K" "Object" "read" [] "int"] } ∧
     (mkMethod typeDispatcher0 .plain "K" "Object" "read" [] "int").name ∈
       initialiseProxiesInstalledNames
        { mkModule "pytsk3" with classes := [("K",
            { mkClassGenerator "K" "Object" with methods :=
                [mkMethod typeDispatcher0 .plain "K" "Object" "close" [] "int",
                 mkMethod typeDispatcher0 .plain "K" "Object" "_x" [] "int",
                 mkMethod typeDispatcher0 .plain "K" "Object" "read" [] "int"] })] }
        "K") :=
  ⟨(close_proxy_exclusion_amended
      { mkModule "pytsk3" with classes := [("K",
          { mkClassGenerator "K" "Object" with methods :=
              [mkMethod typeDispatcher0 .plain "K" "Object" "close" [] "int",
               mkMethod typeDispatcher0 .plain "K" "Object" "_x" [] "int",
               mkMethod typeDispatcher0 .plain "K" "Object" "read" [] "int"] })] }
      "K"
      { mkClassGenerator "K" "Object" with methods :=
          [mkMethod typeDispatcher0 .plain "K" "Object" "close" [] "int",
           mkMethod typeDispatcher0 .plain "K" "Object" "_x" [] "int",
           mkMethod typeDispatcher0 .plain "K" "Object" "read" [] "int"] }
      (by decide)).1,
   (close_proxy_exclusion_amended
      { mkModule "pytsk3" with classes := [("K",
          { mkClassGenerator "K" "Object" with methods :=
              [mkMethod typeDispatcher0 .plain "K" "Object" "close" [] "int",
               mkMethod typeDispatcher0 .plain "K" "Object" "_x" [] "int",
               mkMethod typeDispatcher0 .plain "K" "Object" "read" [] "int"] })] }
      "K"
      { mkClassGenerator "K" "Object" with methods :=
          [mkMethod typeDispatcher0 .plain "K" "Object" "close" [] "int",
           mkMethod typeDispatcher0 .plain "K" "Object" "_x" [] "int",
           mkMethod typeDispatcher0 .plain "K" "Object" "read" [] "int"] }
      (by decide)).2.1,
   (close_proxy_exclusion_amended
      { mkModule "pytsk3" with classes := [("K",
          { mkClassGenerator "K" "Object" with methods :=
              [mkMethod typeDispatcher0 .plain "K" "Object" "close" [] "int",
               mkMethod typeDispatcher0 .plain "K" "Object" "_x" [] "int",
               mkMethod typeDispatcher0 .plain "K" "Object" "read" [] "int"] })] }
      "K"
      { mkClassGenerator "K" "Object" with methods :=
          [mkMethod typeDispatcher0 .plain "K" "Object" "close" [] "int",
           mkMethod typeDispatcher0 .plain "K" "Object" "_x" [] "int",
           mkMethod typeDispatcher0 .plain "K" "Object" "read" [] "int"] }
      (by decide)).2.2.1
     (mkMethod typeDispatcher0 .plain "K" "Object" "_x" [] "int")
     (by decide) (by decide),
   (close_proxy_exclusion_amended
      { mkModule "pytsk3" with classes := [("K",
          { mkClassGenerator "K" "Object" with methods :=
              [mkMethod typeDispatcher0 .plain "K" "Object" "close" [] "int",
               mkMethod typeDispatcher0 .plain "K" "Object" "_x" [] "int",
               mkMethod typeDispatcher0 .plain "K" "Object" "read" [] "int"] })] }
      "K"
      { mkClassGenerator "K" "Object" with methods :=
          [mkMethod typeDispatcher0 .plain "K" "Object" "close" [] "int",
           mkMethod typeDispatcher0 .plain "K" "Object" "_x" [] "int",
           mkMethod typeDispatcher0 .plain "K" "Object" "read" [] "int"] }
      (by decide)).2.2.2
     (mkMethod typeDispatcher0 .plain "K" "Object" "read" [] "int")
     (by decide) (by decide) (by decide)⟩

/-- C7 counterexample: as stated, the claim is false on the code — the
two-pass parse of Scenario A's text does not give `Bar` an integer
argument `x` with format string `"i"`. -/
theorem scenarioA_claim_counterexample : ¬ claimC7Stated := by
  unfold claimC7Stated
  decide

/-- C7 amended: parsing `CLASS(Foo, Obj)` containing
`int METHOD(Foo, Bar, IN int, x);` produces a class `Foo` with exactly
one method named `Bar` whose return type is integer (spelled `int`),
but whose argument list is empty (the spelling `IN` resolves to no
registered type, so the argument is logged and skipped, and the stray
`x` is discarded by the lexer's bounded error recovery), and whose
generated argument format string is the empty string. -/
theorem scenarioA_actual_result :
    (dictGet (parseTwice textScenarioA).model.module.classes "Foo").map
      (fun foo => foo.methods.map fun b =>
        (b.name, b.args, b.return_type.variant,
          b.return_type.originalType, parseLineOf b)) =
    some [("Bar", [], TypeVariant.integer, "int", "")] := by decide

/-- C9: with `CLASS(Derived, Base)` declared before `Base`'s own block,
the base is undefined at boot, pass 1 leaves `Derived` un-seeded (the
clone failed; no methods), and after the second pass `Derived` is
seeded from the fully built `Base`: its method list is exactly the
clone of Base's methods. -/
theorem forward_reference_resolved_by_second_pass :
    (dictGet headerParserBoot.model.module.classes "Base" = none) ∧
    ((dictGet (parseOnce headerParserBoot textScenarioE).model.module.classes
        "Derived").map
      (fun c => (c.base_class_name, c.methods.map MethodM.name)) =
      some ("Base", [])) ∧
    ((dictGet (parseTwice textScenarioE).model.module.classes
        "Derived").map
      (fun c => (c.base_class_name, c.methods.map MethodM.name)) =
      some ("Base", ["foo"])) ∧
    ((dictGet (parseOnce headerParserBoot textScenarioE).model.module.classes
        "Base").map
      (fun b => b.methods.map (methodClone · "Derived")) =
      (dictGet (parseTwice textScenarioE).model.module.classes
        "Derived").map ClassGen.methods) := by
  refine ⟨by decide, by decide, by decide, by decide⟩


/-! Branch equations for `Module.initialise_class`, and small facts
about `activeName` and `emittedBefore`, used by the initialisation
ordering proof. -/

theorem init_eq_early (mod : ModuleM) (name : String) (done : List String)
    (h : done ≠ [] ∧ name ∈ done) :
    initialise_class mod name done = (done, []) := by
  rw [initialise_class, dif_pos h]

theorem init_eq_none (mod : ModuleM) (name : String) (done : List String)
    (h : ¬ (done ≠ [] ∧ name ∈ done))
    (hcls : dictGet mod.classes name = none) :
    initialise_class mod name done = (done ++ [name], []) := by
  rw [initialise_class, dif_neg h]
  split
  · rfl
  · rename_i cls heq
    rw [hcls] at heq
    exact Option.noConfusion heq

theorem init_eq_inactive (mod : ModuleM) (name : String)
    (done : List String) (cls : ClassGen)
    (h : ¬ (done ≠ [] ∧ name ∈ done))
    (hcls : dictGet mod.classes name = some cls)
    (hact : isActive mod cls = false) :
    initialise_class mod name done = (done ++ [name], []) := by
  rw [initialise_class, dif_neg h]
  split
  · rename_i heq
    exfalso
    rw [hcls] at heq
    exact Option.noConfusion heq
  · rename_i cls' heq
    rw [hcls] at heq
    injection heq with he
    subst he
    rw [if_neg (by simp [hact])]

theorem init_eq_nobase (mod : ModuleM) (name : String)
    (done : List String) (cls : ClassGen)
    (h : ¬ (done ≠ [] ∧ name ∈ done))
    (hcls : dictGet mod.classes name = some cls)
    (hact : isActive mod cls = true)
    (hbase : dictGet mod.classes cls.base_class_name = none) :
    initialise_class mod name done = (done ++ [name], [name]) := by
  rw [initialise_class, dif_neg h]
  split
  · rename_i heq
    exfalso
    rw [hcls] at heq
    exact Option.noConfusion heq
  · rename_i cls' heq
    rw [hcls] at heq
    injection heq with he
    subst he
    rw [if_pos hact]
    simp only [hbase]

theorem init_eq_base_inactive (mod : ModuleM) (name : String)
    (done : List String) (cls base : ClassGen)
    (h : ¬ (done ≠ [] ∧ name ∈ done))
    (hcls : dictGet mod.classes name = some cls)
    (hact : isActive mod cls = true)
    (hbase : dictGet mod.classes cls.base_class_name = some base)
    (hbact : isActive mod base = false) :
    initialise_class mod name done = (done ++ [name], [name]) := by
  rw [initialise_class, dif_neg h]
  split
  · rename_i heq
    exfalso
    rw [hcls] at heq
    exact Option.noConfusion heq
  · rename_i cls' heq
    rw [hcls] at heq
    injection heq with he
    subst he
    rw [if_pos hact]
    simp only [hbase]
    rw [if_neg (by simp [hbact])]

theorem init_eq_rec (mod : ModuleM) (name : String)
    (done : List String) (cls base : ClassGen)
    (h : ¬ (done ≠ [] ∧ name ∈ done))
    (hcls : dictGet mod.classes name = some cls)
    (hact : isActive mod cls = true)
    (hbase : dictGet mod.classes cls.base_class_name = some base)
    (hbact : isActive mod base = true) :
    initialise_class mod name done =
      ((initialise_class mod cls.base_class_name (done ++ [name])).1,
       (initialise_class mod cls.base_class_name (done ++ [name])).2 ++
         [name]) := by
  rw [initialise_class, dif_neg h]
  split
  · rename_i heq
    exfalso
    rw [hcls] at heq
    exact Option.noConfusion heq
  · rename_i cls' heq
    rw [hcls] at heq
    injection heq with he
    subst he
    rw [if_pos hact]
    simp only [hbase]
    rw [if_pos hbact]

theorem activeName_of_get {mod : ModuleM} {n : String} {c : ClassGen}
    (hcls : dictGet mod.classes n = some c) :
    activeName mod n = isActive mod c := by
  unfold activeName
  rw [hcls]

theorem activeName_of_none {mod : ModuleM} {n : String}
    (hcls : dictGet mod.classes n = none) :
    activeName mod n = false := by
  unfold activeName
  rw [hcls]

theorem activeName_key_mem {mod : ModuleM} {n : String}
    (h : activeName mod n = true) : n ∈ mod.classes.map Prod.fst := by
  unfold activeName at h
  cases hcls : dictGet mod.classes n with
  | none => rw [hcls] at h; cases h
  | some c => exact dictGet_key_mem hcls

theorem emittedBefore_append {E : List String} {b n : String}
    (h : emittedBefore E b n) (l : List String) :
    emittedBefore (E ++ l) b n := by
  obtain ⟨E1, E2, rfl, hb⟩ := h
  exact ⟨E1, E2 ++ l, by simp, hb⟩

theorem emittedBefore_snoc {E : List String} {b : String} (n : String)
    (hb : b ∈ E) : emittedBefore (E ++ [n]) b n :=
  ⟨E, [], rfl, hb⟩


/-- The single-call invariant of the ensure-written recursion: starting
from a visited set whose active members (outside the in-progress path
`P`) are exactly the already-emitted list `E` — `E` duplicate-free and
inheritance-ordered — one call extends the emission list, preserving
all three properties; the visited set grows, the visited class is
marked, and everything newly emitted was unvisited.  Soundness of the
early return for the ordering needs acyclicity, witnessed by `rk`. -/
theorem initialise_class_invariant (mod : ModuleM) (rk : String → Nat)
    (hrk : ForestRank mod rk) :
    ∀ (k : Nat) (name : String) (done E P : List String),
    ((mod.classes.map Prod.fst).filter fun x =>
      decide (x ∉ done)).length ≤ k →
    (∀ s ∈ P, rk name < rk s) →
    (∀ s ∈ P, s ∈ done) →
    (∀ n, (n ∈ done ∧ activeName mod n = true ∧ n ∉ P) ↔ n ∈ E) →
    OrdInv mod E →
    E.Nodup →
    ((∀ n, (n ∈ (initialise_class mod name done).1 ∧
        activeName mod n = true ∧ n ∉ P) ↔
        n ∈ E ++ (initialise_class mod name done).2) ∧
      OrdInv mod (E ++ (initialise_class mod name done).2) ∧
      (E ++ (initialise_class mod name done).2).Nodup ∧
      (∀ n ∈ done, n ∈ (initialise_class mod name done).1) ∧
      name ∈ (initialise_class mod name done).1 ∧
      (∀ n ∈ (initialise_class mod name done).2, n ∉ done)) := by
  intro k
  induction k using Nat.strong_induction_on with
  | _ k IH =>
  intro name done E P hk hP1 hP2 h1 h2 h3
  by_cases hguard : done ≠ [] ∧ name ∈ done
  · rw [init_eq_early mod name done hguard]
    simp only [List.append_nil]
    exact ⟨h1, h2, h3, fun n hn => hn, hguard.2, by simp⟩
  · have hnd : name ∉ done := fun hin =>
      hguard ⟨List.ne_nil_of_mem hin, hin⟩
    have hnP : name ∉ P := fun hin => absurd (hP1 name hin) (lt_irrefl _)
    cases hcls : dictGet mod.classes name with
    | none =>
      rw [init_eq_none mod name done hguard hcls]
      have hact : activeName mod name = false := activeName_of_none hcls
      simp only [List.append_nil]
      refine ⟨?_, h2, h3, fun n hn => List.mem_append_left _ hn,
        List.mem_append_right _ (List.mem_singleton.mpr rfl), by simp⟩
      intro n
      constructor
      · rintro ⟨hmem, hactn, hnp⟩
        rcases List.mem_append.mp hmem with hmem | hmem
        · exact (h1 n).mp ⟨hmem, hactn, hnp⟩
        · rw [List.mem_singleton.mp hmem, hact] at hactn
          exact Bool.noConfusion hactn
      · intro hE
        obtain ⟨hd, ha, hp⟩ := (h1 n).mpr hE
        exact ⟨List.mem_append_left _ hd, ha, hp⟩
    | some cls =>
      have hactn_eq : activeName mod name = isActive mod cls :=
        activeName_of_get hcls
      by_cases hact : isActive mod cls = true
      case neg =>
        have hactF : isActive mod cls = false := by
          cases hq : isActive mod cls
          · rfl
          · exact absurd hq hact
        rw [init_eq_inactive mod name done cls hguard hcls hactF]
        have hactn : activeName mod name = false := by
          rw [hactn_eq, hactF]
        simp only [List.append_nil]
        refine ⟨?_, h2, h3, fun n hn => List.mem_append_left _ hn,
          List.mem_append_right _ (List.mem_singleton.mpr rfl), by simp⟩
        intro n
        constructor
        · rintro ⟨hmem, hactn', hnp⟩
          rcases List.mem_append.mp hmem with hmem | hmem
          · exact (h1 n).mp ⟨hmem, hactn', hnp⟩
          · rw [List.mem_singleton.mp hmem, hactn] at hactn'
            exact Bool.noConfusion hactn'
        · intro hE
          obtain ⟨hd, ha, hp⟩ := (h1 n).mpr hE
          exact ⟨List.mem_append_left _ hd, ha, hp⟩
      case pos =>
      have hactn : activeName mod name = true := by rw [hactn_eq, hact]
      have hnameE : name ∉ E := fun hin => hnd ((h1 name).mpr hin).1
      have hsingle : ∀ (heq : initialise_class mod name done =
          (done ++ [name], [name])),
          activeName mod cls.base_class_name = false →
          ((∀ n, (n ∈ (initialise_class mod name done).1 ∧
              activeName mod n = true ∧ n ∉ P) ↔
              n ∈ E ++ (initialise_class mod name done).2) ∧
            OrdInv mod (E ++ (initialise_class mod name done).2) ∧
            (E ++ (initialise_class mod name done).2).Nodup ∧
            (∀ n ∈ done, n ∈ (initialise_class mod name done).1) ∧
            name ∈ (initialise_class mod name done).1 ∧
            (∀ n ∈ (initialise_class mod name done).2, n ∉ done)) := by
        intro heq hbact_false
        rw [heq]
        refine ⟨?_, ?_, ?_, fun n hn => List.mem_append_left _ hn,
          List.mem_append_right _ (List.mem_singleton.mpr rfl), ?_⟩
        · intro n
          constructor
          · rintro ⟨hmem, hactn', hnp⟩
            rcases List.mem_append.mp hmem with hmem | hmem
            · exact List.mem_append_left _ ((h1 n).mp ⟨hmem, hactn', hnp⟩)
            · exact List.mem_append_right _ hmem
          · intro hE
            rcases List.mem_append.mp hE with hE | hE
            · obtain ⟨hd, ha, hp⟩ := (h1 n).mpr hE
              exact ⟨List.mem_append_left _ hd, ha, hp⟩
            · rw [List.mem_singleton.mp hE]
              exact ⟨List.mem_append_right _
                (List.mem_singleton.mpr rfl), hactn, hnP⟩
        · intro n' cls' hget hmem hbact'
          rcases List.mem_append.mp hmem with hmem | hmem
          · exact emittedBefore_append (h2 n' cls' hget hmem hbact') _
          · rw [List.mem_singleton.mp hmem] at hget ⊢
            rw [hcls] at hget
            injection hget with hget
            rw [← hget] at hbact'
            rw [hbact_false] at hbact'
            exact Bool.noConfusion hbact'
        · rw [List.nodup_append]
          refine ⟨h3, List.nodup_singleton _, ?_⟩
          intro a haE ha1
          rw [List.mem_singleton.mp ha1] at haE
          exact hnameE haE
        · intro n hn
          rw [List.mem_singleton.mp hn]
          exact hnd
      cases hbase : dictGet mod.classes cls.base_class_name with
      | none =>
        exact hsingle
          (init_eq_nobase mod name done cls hguard hcls hact hbase)
          (activeName_of_none hbase)
      | some base =>
        by_cases hbact : isActive mod base = true
        case neg =>
          have hbactF : isActive mod base = false := by
            cases hq : isActive mod base
            · rfl
            · exact absurd hq hbact
          exact hsingle
            (init_eq_base_inactive mod name done cls base hguard hcls hact
              hbase hbactF)
            (by rw [activeName_of_get hbase, hbactF])
        case pos =>
        rw [init_eq_rec mod name done cls base hguard hcls hact hbase hbact]
        have hname1 : name ∈ done ++ [name] :=
          List.mem_append_right _ (List.mem_singleton.mpr rfl)
        have hmeas :
            ((mod.classes.map Prod.fst).filter fun x =>
              decide (x ∉ done ++ [name])).length < k := by
          have hlt := length_filter_visit_lt (mod.classes.map Prod.fst)
            done name (dictGet_key_mem hcls) hnd
          omega
        have hrkbase : rk cls.base_class_name < rk name :=
          hrk name cls hcls (by rw [hbase]; rfl)
        have hP1' : ∀ s ∈ name :: P, rk cls.base_class_name < rk s := by
          intro s hs
          rcases List.mem_cons.mp hs with rfl | hs
          · exact hrkbase
          · exact lt_trans hrkbase (hP1 s hs)
        have hP2' : ∀ s ∈ name :: P, s ∈ done ++ [name] := by
          intro s hs
          rcases List.mem_cons.mp hs with rfl | hs
          · exact hname1
          · exact List.mem_append_left _ (hP2 s hs)
        have h1' : ∀ n, (n ∈ done ++ [name] ∧ activeName mod n = true ∧
            n ∉ name :: P) ↔ n ∈ E := by
          intro n
          constructor
          · rintro ⟨hmem, ha, hp⟩
            have hnname : n ≠ name := fun hh =>
              hp (hh ▸ List.mem_cons_self _ _)
            have hnp : n ∉ P := fun hh => hp (List.mem_cons_of_mem _ hh)
            rcases List.mem_append.mp hmem with hmem | hmem
            · exact (h1 n).mp ⟨hmem, ha, hnp⟩
            · exact absurd (List.mem_singleton.mp hmem) hnname
          · intro hE
            obtain ⟨hd, ha, hp⟩ := (h1 n).mpr hE
            have hnname : n ≠ name := fun hh => hnd (hh ▸ hd)
            refine ⟨List.mem_append_left _ hd, ha, ?_⟩
            intro hh
            rcases List.mem_cons.mp hh with hh | hh
            · exact hnname hh
            · exact hp hh
        obtain ⟨c1', c2', c3', c4', c5', c6'⟩ :=
          IH (((mod.classes.map Prod.fst).filter fun x =>
              decide (x ∉ done ++ [name])).length) hmeas
            cls.base_class_name (done ++ [name]) E (name :: P)
            (le_refl _) hP1' hP2' h1' h2 h3
        have hbact_n : activeName mod cls.base_class_name = true := by
          rw [activeName_of_get hbase, hbact]
        have hbase_ne : cls.base_class_name ≠ name := fun hh =>
          absurd (hh ▸ hrkbase) (lt_irrefl _)
        have hbase_nP : cls.base_class_name ∉ P := fun hh =>
          absurd (lt_trans hrkbase (hP1 _ hh)) (lt_irrefl _)
        have hbase_inE2 : cls.base_class_name ∈
            E ++ (initialise_class mod cls.base_class_name
              (done ++ [name])).2 := by
          refine (c1' cls.base_class_name).mp ⟨c5', hbact_n, ?_⟩
          intro hh
          rcases List.mem_cons.mp hh with hh | hh
          · exact hbase_ne hh
          · exact hbase_nP hh
        have hname_done2 : name ∈
            (initialise_class mod cls.base_class_name (done ++ [name])).1 :=
          c4' name hname1
        have hname_notE2 : name ∉
            E ++ (initialise_class mod cls.base_class_name
              (done ++ [name])).2 := by
          intro hh
          rcases List.mem_append.mp hh with hh | hh
          · exact hnameE hh
          · exact (c6' name hh) hname1
        refine ⟨?_, ?_, ?_, ?_, hname_done2, ?_⟩
        · intro n
          constructor
          · rintro ⟨hmem, ha, hp⟩
            by_cases hn : n = name
            · subst hn
              rw [← List.append_assoc]
              exact List.mem_append_right _ (List.mem_singleton.mpr rfl)
            · have hmem2 : n ∈ E ++ (initialise_class mod
                  cls.base_class_name (done ++ [name])).2 :=
                (c1' n).mp ⟨hmem, ha, by
                  intro hh
                  rcases List.mem_cons.mp hh with hh | hh
                  · exact hn hh
                  · exact hp hh⟩
              rw [← List.append_assoc]
              exact List.mem_append_left _ hmem2
          · intro hmem
            rw [← List.append_assoc] at hmem
            rcases List.mem_append.mp hmem with hmem | hmem
            · obtain ⟨hd, ha, hp⟩ := (c1' n).mpr hmem
              exact ⟨hd, ha, fun hh =>
                hp (List.mem_cons_of_mem _ hh)⟩
            · rw [List.mem_singleton.mp hmem]
              exact ⟨hname_done2, hactn, hnP⟩
        · intro n' cls' hget hmem hbact'
          rw [← List.append_assoc] at hmem ⊢
          rcases List.mem_append.mp hmem with hmem | hmem
          · exact emittedBefore_append (c2' n' cls' hget hmem hbact') _
          · rw [List.mem_singleton.mp hmem] at hget ⊢
            rw [hcls] at hget
            injection hget with hget
            rw [← hget]
            exact emittedBefore_snoc name hbase_inE2
        · rw [← List.append_assoc, List.nodup_append]
          refine ⟨c3', List.nodup_singleton _, ?_⟩
          intro a haE ha1
          rw [List.mem_singleton.mp ha1] at haE
          exact hname_notE2 haE
        · intro n hn
          exact c4' n (List.mem_append_left _ hn)
        · intro n hn
          rcases List.mem_append.mp hn with hn | hn
          · exact fun hdone => (c6' n hn) (List.mem_append_left _ hdone)
          · rw [List.mem_singleton.mp hn]
            exact hnd


/-- A `forestRankB` check implies the `ForestRank` side condition. -/
theorem forestRank_of_forestRankB {mod : ModuleM} {rk : String → Nat}
    (h : forestRankB mod rk = true) : ForestRank mod rk := by
  intro n cls hget hbase
  have hall := List.all_eq_true.mp h _ (dictGet_mem hget)
  simp only at hall
  cases hb : dictGet mod.classes cls.base_class_name with
  | none =>
    rw [hb] at hbase
    exact Bool.noConfusion hbase
  | some b =>
    simp only [hget, hb] at hall
    exact of_decide_eq_true hall

/-- The initialisation loop of `Module.write` keeps the invariant while
folding the table's keys through `initialise_class` with one shared
visited set. -/
theorem writeLoop_invariant (mod : ModuleM) (rk : String → Nat)
    (hrk : ForestRank mod rk) :
    ∀ (keys done E : List String),
    (∀ n, (n ∈ done ∧ activeName mod n = true) ↔ n ∈ E) →
    OrdInv mod E →
    E.Nodup →
    ((∀ n, (n ∈ (keys.foldl
        (fun (acc : List String × List String) class_name =>
          let r := initialise_class mod class_name acc.1
          (r.1, acc.2 ++ r.2)) (done, E)).1 ∧
        activeName mod n = true) ↔
        n ∈ (keys.foldl
        (fun (acc : List String × List String) class_name =>
          let r := initialise_class mod class_name acc.1
          (r.1, acc.2 ++ r.2)) (done, E)).2) ∧
      OrdInv mod (keys.foldl
        (fun (acc : List String × List String) class_name =>
          let r := initialise_class mod class_name acc.1
          (r.1, acc.2 ++ r.2)) (done, E)).2 ∧
      ((keys.foldl
        (fun (acc : List String × List String) class_name =>
          let r := initialise_class mod class_name acc.1
          (r.1, acc.2 ++ r.2)) (done, E)).2).Nodup ∧
      (∀ n ∈ done, n ∈ (keys.foldl
        (fun (acc : List String × List String) class_name =>
          let r := initialise_class mod class_name acc.1
          (r.1, acc.2 ++ r.2)) (done, E)).1) ∧
      (∀ n ∈ keys, n ∈ (keys.foldl
        (fun (acc : List String × List String) class_name =>
          let r := initialise_class mod class_name acc.1
          (r.1, acc.2 ++ r.2)) (done, E)).1)) := by
  intro keys
  induction keys with
  | nil =>
    intro done E h1 h2 h3
    exact ⟨h1, h2, h3, fun n hn => hn, by simp⟩
  | cons key rest ih =>
    intro done E h1 h2 h3
    obtain ⟨c1, c2, c3, c4, c5, c6⟩ :=
      initialise_class_invariant mod rk hrk
        (((mod.classes.map Prod.fst).filter fun x =>
          decide (x ∉ done)).length) key done E [] (le_refl _)
        (by simp) (by simp)
        (fun n => by simpa using h1 n) h2 h3
    have h1' : ∀ n, (n ∈ (initialise_class mod key done).1 ∧
        activeName mod n = true) ↔
        n ∈ E ++ (initialise_class mod key done).2 :=
      fun n => by simpa using c1 n
    obtain ⟨g1, g2, g3, g4, g5⟩ :=
      ih (initialise_class mod key done).1
        (E ++ (initialise_class mod key done).2) h1' c2 c3
    simp only [List.foldl_cons]
    refine ⟨g1, g2, g3, ?_, ?_⟩
    · intro n hn
      exact g4 n (c4 n hn)
    · intro n hn
      rcases List.mem_cons.mp hn with rfl | hn
      · exact g4 n c5
      · exact g5 n hn

/-- C3: for every module class table whose inheritance links form a
forest, the `Module.write` initialisation loop emits each active
class's type-registration code exactly once (and never emits an
inactive class), and whenever both a class and its base are present
and active, the base's registration is emitted strictly before the
derived class's. -/
theorem initialisation_order_correct (mod : ModuleM) (rk : String → Nat)
    (hrk : ForestRank mod rk) :
    (∀ n : String, activeName mod n = true →
      (writeInitOrder mod).count n = 1) ∧
    (∀ n : String, activeName mod n = false →
      (writeInitOrder mod).count n = 0) ∧
    (∀ (n : String) (cls : ClassGen),
      dictGet mod.classes n = some cls →
      activeName mod n = true →
      activeName mod cls.base_class_name = true →
      emittedBefore (writeInitOrder mod) cls.base_class_name n) := by
  obtain ⟨g1, g2, g3, g4, g5⟩ := writeLoop_invariant mod rk hrk
    (mod.classes.map Prod.fst) [] [] (by simp)
    (fun n cls _ h _ => absurd h (List.not_mem_nil n))
    List.nodup_nil
  unfold writeInitOrder
  refine ⟨?_, ?_, ?_⟩
  · intro n hact
    have hkey : n ∈ mod.classes.map Prod.fst := activeName_key_mem hact
    exact List.count_eq_one_of_mem g3 ((g1 n).mp ⟨g5 n hkey, hact⟩)
  · intro n hact
    refine List.count_eq_zero_of_not_mem ?_
    intro hin
    have := ((g1 n).mpr hin).2
    rw [hact] at this
    exact Bool.noConfusion this
  · intro n cls hget hma hmb
    have hkey : n ∈ mod.classes.map Prod.fst := dictGet_key_mem hget
    exact g2 n cls hget ((g1 n).mp ⟨g5 n hkey, hma⟩) hmb

/-- C3 witness: in the demo table (`Object` ← `Foo`, `Object` ←
`Hidden` private), `Object` and `Foo` are each registered exactly once,
`Hidden` never, and `Object` is registered before `Foo`. -/
theorem initialisation_order_correct_witness :
    (writeInitOrder demoModule).count "Object" = 1 ∧
    (writeInitOrder demoModule).count "Foo" = 1 ∧
    (writeInitOrder demoModule).count "Hidden" = 0 ∧
    emittedBefore (writeInitOrder demoModule) "Object" "Foo" :=
  ⟨(initialisation_order_correct demoModule demoRank
      (forestRank_of_forestRankB (by decide))).1 "Object" (by decide),
   (initialisation_order_correct demoModule demoRank
      (forestRank_of_forestRankB (by decide))).1 "Foo" (by decide),
   (initialisation_order_correct demoModule demoRank
      (forestRank_of_forestRankB (by decide))).2.1 "Hidden" (by decide),
   (initialisation_order_correct demoModule demoRank
      (forestRank_of_forestRankB (by decide))).2.2 "Foo"
      (mkClassGenerator "Foo" "Object") (by decide) (by decide)
      (by decide)⟩

end Pytsk
